import Mathlib

/-!
Verification of the throttled, TTL-cached web requestor of mig-meta-compare.

The authoritative implementation embedded here is the complete draft of
`AxiosCacheableWebRequestor` (src/unnamed/part_000, lines 119-566); the
earlier draft in src/lib/axios-cacheable-web-requestor.js is embedded
separately where a claim concerns it (its `fetchUrl`).

Modelling conventions:
- JavaScript numbers used as counters/timestamps are embedded as `Nat`/`Int`.
- Promise results are embedded as `JsRes`: `ok` (resolved), `err` (rejected
  with a JS error), `div` (the fuel of a recursive wait/retry loop ran out;
  the real code would still be looping).
- The filesystem and the axios client are external collaborators: the
  filesystem is explicit state (files with mtimes, plus the set of existing
  directories), the client is a function from attempt index and method to an
  outcome.
- Node `path.join` joins its arguments with `/` and then normalizes the
  result (collapsing `//`, resolving `.` and `..` segments).  A normalized
  absolute path is represented by its list of segments (each a `List Char`);
  the rendered string is `/` followed by the `/`-interleaved segments, and
  two normalized absolute paths are equal as strings iff their segment lists
  are equal.  The model covers absolute cache roots, which is how the
  requestor is configured.
-/

/-! ### Concurrency limiter (queuedFileRead / queuedFileWrite handle counting)

Both drafts guard every filesystem read and write with
`if (this.ioQueueOpenHandles <= this.ioQueueMaxHandles)` followed by a
synchronous `this.ioQueueOpenHandles++`, and decrement on every exit path.
In the Node event loop the guard test and the increment run atomically
(no `await` separates them), so the possible interleavings of concurrent
cache reads and writes are exactly the sequences of atomic
acquire (guarded test-and-increment) and release (decrement) steps below. -/

/-- `this.ioQueueMaxHandles = 50` (hardcoded in the constructor of both drafts). -/
def ioQueueMaxHandles : Nat := 50

/-- One atomic step of the handle counter: an operation passing the guard and
incrementing, or a completed operation decrementing. -/
inductive QOp where
  | acquire : QOp
  | release : QOp
deriving DecidableEq, Repr

/-- The transition of `ioQueueOpenHandles` for one step.  `acquire` is enabled
exactly when the source guard `ioQueueOpenHandles <= ioQueueMaxHandles` holds
(a caller finding the guard false waits and performs no transition);
`release` is enabled when some operation is outstanding. -/
def qStep (maxHandles : Nat) (n : Nat) : QOp → Option Nat
  | .acquire => if n ≤ maxHandles then some (n + 1) else none
  | .release => if 0 < n then some (n - 1) else none

/-- Run a sequence of steps from a starting count; `none` when a step was not
enabled. -/
def runQueue (maxHandles : Nat) (start : Nat) : List QOp → Option Nat
  | [] => some start
  | op :: ops =>
    match qStep maxHandles start op with
    | none => none
    | some n => runQueue maxHandles n ops

/-! ### Path resolver (getPathForUrl, src/unnamed/part_000 lines 347-364)

`getPathForUrl(url, method)` parses the URL, then returns
`path.join(path.join(this.cachePath, urlObj.pathname), hostname + ext)` with
`ext` `.html` for GET and `.json` for HEAD.  The WHATWG URL parser supplies
`hostname` (never containing `/`) and `pathname` (dot segments already
removed, but duplicate and trailing slashes preserved).  Node `path.join`
concatenates its arguments with `/` and normalizes the result; the model
splits every argument on `/` and folds the normalization over the combined
segment list. -/

/-- The two supported entries of `NETWORK_METHODS` (`GET: 1`, `HEAD: 2`). -/
inductive NetMethod where
  | GET : NetMethod
  | HEAD : NetMethod
deriving DecidableEq, Repr

/-- The components of a parsed absolute URL that the requestor consumes
(`urlObj.hostname` and `urlObj.pathname`). -/
structure UrlParts where
  hostname : String
  pathname : String
deriving DecidableEq, Repr

/-- A normalized absolute filesystem path, as its list of segments. -/
abbrev FsPath := List (List Char)

/-- Split a character list at every `/` (the segments of one `path.join`
argument); mirrors `String.splitOn "/"`. -/
def splitSlash : List Char → List (List Char)
  | [] => [[]]
  | c :: rest =>
    if c = '/' then [] :: splitSlash rest
    else
      match splitSlash rest with
      | [] => [[c]]
      | seg :: segs => (c :: seg) :: segs

/-- The raw (unnormalized) segments of one `path.join` argument. -/
def rawSegs (s : String) : List (List Char) := splitSlash s.data

/-- One step of Node path normalization over an absolute path: empty segments
(duplicate or trailing slashes) and `.` disappear, `..` pops the previous
segment (at the root it is dropped). -/
def normStep (acc : List (List Char)) (seg : List Char) : List (List Char) :=
  if seg = [] ∨ seg = ['.'] then acc
  else if seg = ['.', '.'] then acc.dropLast
  else acc ++ [seg]

/-- The file extension appended to the hostname: `.html` for GET and `.json`
for HEAD (part_000 lines 356-363). -/
def extSegStr : NetMethod → String
  | .GET => ".html"
  | .HEAD => ".json"

/-- `getPathForUrl` on parsed URL components:
`path.join(path.join(cachePath, pathname), hostname + ext)` as the normalized
segment list of the joined arguments. -/
def getPathForParts (cachePath : String) (u : UrlParts) (m : NetMethod) : FsPath :=
  (rawSegs cachePath ++ rawSegs u.pathname ++ rawSegs (u.hostname ++ extSegStr m)).foldl
    normStep []

/-! ### The requestor pipeline (src/unnamed/part_000 lines 119-566)

State threaded through every operation: the filesystem (files with contents
and mtimes, plus the set of existing directories), the shared
`ioQueueOpenHandles` counter, the `instrumenting` flag with its `stats`
record, and a log of the network requests actually issued by the axios
client (used to state retry properties).  External collaborators are
parameters: the WHATWG URL parser, the axios client (a function from attempt
index and method to an outcome) and `JSON.stringify`/`JSON.parse`. -/

/-- `this.stats` (constructor, part_000 lines 168-173). -/
structure Stats where
  pendingRequests : Int
  pendingStats : Int
  pendingReads : Int
  pendingWrites : Int
deriving DecidableEq, Repr

/-- The filesystem as seen through `fs.stat`, `fs.readFile`, `fs.writeFile`
and `fs.mkdir`: contents and mtime per file, plus which directories exist. -/
structure CacheFs where
  files : FsPath → Option (String × Int)
  dirs : FsPath → Bool

/-- The mutable instance state of `AxiosCacheableWebRequestor`, plus the log
of issued network requests. -/
structure Sys where
  fs : CacheFs
  openHandles : Nat
  instrumenting : Bool
  stats : Stats
  netLog : List (String × NetMethod)

/-- The classes of JavaScript errors the requestor distinguishes. -/
inductive JsError where
  | fsError (code : String)
  | httpStatus (status : Int)
  | reset
  | transport (msg : String)
  | jsError (msg : String)
deriving DecidableEq, Repr

/-- The result of one (possibly fuel-limited) asynchronous operation. -/
inductive JsRes (α : Type) where
  | ok (a : α)
  | err (e : JsError)
  | div
deriving DecidableEq

/-- An axios response as consumed by the requestor (`status`, `headers`,
`data`). -/
structure AxResp where
  status : Int
  headers : List (String × String)
  data : String
deriving DecidableEq, Repr

/-- One outcome of `axclient.get`/`axclient.head`: a resolved response, a
rejection carrying `err.response.status`, a rejection with truthy `err.errno`
and `err.code === 'ECONNRESET'`, or any other transport fault. -/
inductive AxiosOutcome where
  | resp (r : AxResp)
  | errStatus (status : Int)
  | errReset
  | errOther (msg : String)

/-- The serialized HEAD response headers. -/
abbrev HttpHeaders := List (String × String)

/-- The constructor configuration together with the injected collaborators. -/
structure ReqConfig where
  cachePath : String
  cacheDuration : Int
  parseUrl : String → Option UrlParts
  client : Nat → NetMethod → AxiosOutcome
  jsonStringify : HttpHeaders → String
  jsonParse : String → HttpHeaders

/-- Await-style sequencing: a rejected promise or an exhausted wait loop
short-circuits. -/
def jsBind {α β : Type} (p : JsRes α × Sys) (k : α → Sys → JsRes β × Sys) :
    JsRes β × Sys :=
  match p with
  | (.ok a, s) => k a s
  | (.err e, s) => (.err e, s)
  | (.div, s) => (.div, s)

/-- `this.stats['pending' + statType] += d` for the four known categories
(every call site passes one of the four literals). -/
def applyStat (st : Stats) (statType : String) (d : Int) : Stats :=
  if statType = "Requests" then { st with pendingRequests := st.pendingRequests + d }
  else if statType = "Stats" then { st with pendingStats := st.pendingStats + d }
  else if statType = "Reads" then { st with pendingReads := st.pendingReads + d }
  else if statType = "Writes" then { st with pendingWrites := st.pendingWrites + d }
  else st

/-- `updateStats` (part_000 lines 186-199): a no-op unless `instrumenting`;
otherwise increments or decrements the counter, throwing on an unknown
operand.  `printStats` only logs and is omitted. -/
def updateStats (statType op : String) (s : Sys) : JsRes Unit × Sys :=
  if !s.instrumenting then (.ok (), s)
  else if op = "+" then (.ok (), { s with stats := applyStat s.stats statType 1 })
  else if op = "-" then (.ok (), { s with stats := applyStat s.stats statType (-1) })
  else (.err (.jsError "Unknown stat update operand"), s)

/-- `fs.stat`: the mtime of an existing file, `ENOENT` otherwise. -/
def statMtime (fs : CacheFs) (p : FsPath) : Except JsError Int :=
  match fs.files p with
  | some fd => .ok fd.2
  | none => .error (.fsError "ENOENT")

/-- `fs.readFile` (utf8): the contents of an existing file, `ENOENT`
otherwise. -/
def readFileFs (fs : CacheFs) (p : FsPath) : Except JsError String :=
  match fs.files p with
  | some fd => .ok fd.1
  | none => .error (.fsError "ENOENT")

/-- `fs.mkdir(dir, { recursive: true })`: the directory and all its ancestors
(its prefixes) exist afterwards. -/
def mkdirRecursive (fs : CacheFs) (dir : FsPath) : CacheFs :=
  { fs with dirs := fun q => q.isPrefixOf dir || fs.dirs q }

/-- `fs.writeFile`: stores the contents with the current time as mtime;
fails with `ENOENT` when the parent directory does not exist. -/
def writeFileFs (fs : CacheFs) (p : FsPath) (content : String) (now : Int) :
    Except JsError CacheFs :=
  if fs.dirs p.dropLast then
    .ok { fs with files := fun q => if q = p then some (content, now) else fs.files q }
  else .error (.fsError "ENOENT")

/-- `instStat` (part_000 lines 216-227). -/
def instStat (p : FsPath) (s : Sys) : JsRes Int × Sys :=
  jsBind (updateStats "Stats" "+" s) fun _ s =>
    match statMtime s.fs p with
    | .ok mtime => jsBind (updateStats "Stats" "-" s) fun _ s => (.ok mtime, s)
    | .error e => jsBind (updateStats "Stats" "-" s) fun _ s => (.err e, s)

/-- `queuedFileRead` (part_000 lines 324-340): performs the read while the
handle guard passes, otherwise waits and retries (fuel-limited here). -/
def queuedFileRead (fuel : Nat) (p : FsPath) (s : Sys) : JsRes String × Sys :=
  if s.openHandles ≤ ioQueueMaxHandles then
    let s1 := { s with openHandles := s.openHandles + 1 }
    match readFileFs s1.fs p with
    | .ok content => (.ok content, { s1 with openHandles := s1.openHandles - 1 })
    | .error e => (.err e, { s1 with openHandles := s1.openHandles - 1 })
  else
    match fuel with
    | 0 => (.div, s)
    | n + 1 => queuedFileRead n p s

/-- `queuedFileWrite` (part_000 lines 299-316): under the handle guard, makes
the parent directory (recursively) and writes the file; otherwise waits and
retries (fuel-limited here). -/
def queuedFileWrite (fuel : Nat) (now : Int) (p : FsPath) (content : String) (s : Sys) :
    JsRes Unit × Sys :=
  if s.openHandles ≤ ioQueueMaxHandles then
    let s1 := { s with openHandles := s.openHandles + 1 }
    let fs1 := mkdirRecursive s1.fs p.dropLast
    match writeFileFs fs1 p content now with
    | .ok fs2 => (.ok (), { s1 with fs := fs2, openHandles := s1.openHandles - 1 })
    | .error e => (.err e, { s1 with fs := fs1, openHandles := s1.openHandles - 1 })
  else
    match fuel with
    | 0 => (.div, s)
    | n + 1 => queuedFileWrite n now p content s

/-- `instReadFile` (part_000 lines 235-246). -/
def instReadFile (fuel : Nat) (p : FsPath) (s : Sys) : JsRes String × Sys :=
  jsBind (updateStats "Reads" "+" s) fun _ s =>
    match queuedFileRead fuel p s with
    | (.ok content, s) => jsBind (updateStats "Reads" "-" s) fun _ s => (.ok content, s)
    | (.err e, s) => jsBind (updateStats "Reads" "-" s) fun _ s => (.err e, s)
    | (.div, s) => (.div, s)

/-- `instWriteFile` (part_000 lines 254-263). -/
def instWriteFile (fuel : Nat) (now : Int) (p : FsPath) (content : String) (s : Sys) :
    JsRes Unit × Sys :=
  jsBind (updateStats "Writes" "+" s) fun _ s =>
    match queuedFileWrite fuel now p content s with
    | (.ok _, s) => jsBind (updateStats "Writes" "-" s) fun _ s => (.ok (), s)
    | (.err e, s) => jsBind (updateStats "Writes" "-" s) fun _ s => (.err e, s)
    | (.div, s) => (.div, s)

/-- `instNetReq` (part_000 lines 271-291): dispatches on the method, issuing
`axclient.get`/`axclient.head` (recorded in the request log) and throwing
`Unknown Method` on anything else (in particular `undefined`). -/
def instNetReq (cfg : ReqConfig) (attempt : Nat) (url : String)
    (method : Option NetMethod) (s : Sys) : JsRes AxResp × Sys :=
  jsBind (updateStats "Requests" "+" s) fun _ s =>
    match method with
    | some m =>
      let s := { s with netLog := s.netLog ++ [(url, m)] }
      match cfg.client attempt m with
      | .resp r => jsBind (updateStats "Requests" "-" s) fun _ s => (.ok r, s)
      | .errStatus c =>
        jsBind (updateStats "Requests" "-" s) fun _ s => (.err (.httpStatus c), s)
      | .errReset => jsBind (updateStats "Requests" "-" s) fun _ s => (.err .reset, s)
      | .errOther msg =>
        jsBind (updateStats "Requests" "-" s) fun _ s => (.err (.transport msg), s)
    | none =>
      jsBind (updateStats "Requests" "-" s) fun _ s => (.err (.jsError "Unknown Method"), s)

/-- `getPathForUrl` (part_000 lines 347-364): `new URL(url)` (throwing on an
unparseable URL), then the pure resolution of `getPathForParts`. -/
def getPathForUrlE (cfg : ReqConfig) (url : String) (m : NetMethod) :
    Except JsError FsPath :=
  match cfg.parseUrl url with
  | none => .error (.jsError "Invalid URL")
  | some u => .ok (getPathForParts cfg.cachePath u m)

/-- `err.code == 'ENOENT'`. -/
def isENOENT : JsError → Bool
  | .fsError code => code = "ENOENT"
  | _ => false

/-- JavaScript `s.startsWith(pre)` as a character-list prefix test. -/
def strStartsWith (s pre : String) : Bool := pre.data.isPrefixOf s.data

/-- `getFromCache` (part_000 lines 372-402): stat the slot; `ENOENT` is a
miss, other stat faults rethrow; a file younger than `cacheDuration` is read
and returned, an older one is ignored (not deleted). -/
def getFromCache (cfg : ReqConfig) (fuel : Nat) (now : Int) (url : String)
    (m : NetMethod) (s : Sys) : JsRes (Option String) × Sys :=
  match getPathForUrlE cfg url m with
  | .error e => (.err e, s)
  | .ok filePath =>
    match instStat filePath s with
    | (.ok mtime, s) =>
      if now - mtime < cfg.cacheDuration then
        jsBind (instReadFile fuel filePath s) fun content s => (.ok (some content), s)
      else (.ok none, s)
    | (.err e, s) => if isENOENT e then (.ok none, s) else (.err e, s)
    | (.div, s) => (.div, s)

/-- `saveToCache` (part_000 lines 410-420); its catch block only logs before
rethrowing. -/
def saveToCache (cfg : ReqConfig) (fuel : Nat) (now : Int) (url : String)
    (m : NetMethod) (content : String) (s : Sys) : JsRes Unit × Sys :=
  match getPathForUrlE cfg url m with
  | .error e => (.err e, s)
  | .ok filePath => instWriteFile fuel now filePath content s

/-- `fetchUrlContents` (part_000 lines 426-465): GET the url; a rejection
carrying a truthy response status yields `undefined`, `ECONNRESET` waits and
retries the same url without bound (fuel-limited here), other faults rethrow;
a non-200 resolved status yields `undefined`; a missing, empty or
non-`text/html;`-prefixed content-type yields the `||FILEDATA||` sentinel;
otherwise the body. -/
def fetchUrlContents (cfg : ReqConfig) : Nat → Nat → String → Sys →
    JsRes (Option String) × Sys
  | fuel, attempt, url, s =>
    match instNetReq cfg attempt url (some NetMethod.GET) s with
    | (.ok res, s) =>
      if res.status ≠ 200 then (.ok none, s)
      else
        match res.headers.lookup "content-type" with
        | none => (.ok (some "||FILEDATA||"), s)
        | some contentType =>
          if contentType = "" ∨ ¬ strStartsWith contentType "text/html;" then
            (.ok (some "||FILEDATA||"), s)
          else (.ok (some res.data), s)
    | (.err e, s) =>
      match e with
      | .httpStatus c => if c ≠ 0 then (.ok none, s) else (.err (.httpStatus c), s)
      | .reset =>
        match fuel with
        | 0 => (.div, s)
        | n + 1 => fetchUrlContents cfg n (attempt + 1) url s
      | _ => (.err e, s)
    | (.div, s) => (.div, s)

/-- `fetchUrlHeaders` (part_000 lines 471-504): as `fetchUrlContents` but via
HEAD, returning the response headers on status 200. -/
def fetchUrlHeaders (cfg : ReqConfig) : Nat → Nat → String → Sys →
    JsRes (Option HttpHeaders) × Sys
  | fuel, attempt, url, s =>
    match instNetReq cfg attempt url (some NetMethod.HEAD) s with
    | (.ok res, s) =>
      if res.status ≠ 200 then (.ok none, s)
      else (.ok (some res.headers), s)
    | (.err e, s) =>
      match e with
      | .httpStatus c => if c ≠ 0 then (.ok none, s) else (.err (.httpStatus c), s)
      | .reset =>
        match fuel with
        | 0 => (.div, s)
        | n + 1 => fetchUrlHeaders cfg n (attempt + 1) url s
      | _ => (.err e, s)
    | (.div, s) => (.div, s)

/-- JavaScript truthiness of a `string | undefined` value. -/
def optTruthy : Option String → Bool
  | none => false
  | some str => !(str == "")

/-- `getContents` (part_000 lines 536-562): require a nonempty url, consult
the GET cache slot, on a falsy result fetch, cache a truthy fetched body, and
return `undefined` for a falsy final value. -/
def getContents (cfg : ReqConfig) (fuel : Nat) (now : Int) (url : String) (s : Sys) :
    JsRes (Option String) × Sys :=
  if url = "" then (.err (.jsError "URL must be provided."), s)
  else
    match getFromCache cfg fuel now url NetMethod.GET s with
    | (.err e, s) => (.err e, s)
    | (.div, s) => (.div, s)
    | (.ok cached, s) =>
      let afterFetch : JsRes (Option String) × Sys :=
        if optTruthy cached then (.ok cached, s)
        else
          match fetchUrlContents cfg fuel 0 url s with
          | (.err e, s) => (.err e, s)
          | (.div, s) => (.div, s)
          | (.ok fetched, s) =>
            if optTruthy fetched then
              match saveToCache cfg fuel now url NetMethod.GET (fetched.getD "") s with
              | (.ok _, s) => (.ok fetched, s)
              | (.err e, s) => (.err e, s)
              | (.div, s) => (.div, s)
            else (.ok fetched, s)
      match afterFetch with
      | (.err e, s) => (.err e, s)
      | (.div, s) => (.div, s)
      | (.ok content, s) =>
        if optTruthy content then (.ok content, s) else (.ok none, s)

/-- JavaScript truthiness of the `string | headers-object | undefined` value
threaded through `getHeaders` (an object is always truthy). -/
def cvTruthy : Option (Sum String HttpHeaders) → Bool
  | none => false
  | some (.inl str) => !(str == "")
  | some (.inr _) => true

/-- `getHeaders` (part_000 lines 510-530): as `getContents` for the HEAD
slot, serializing fetched headers with `JSON.stringify` before caching, and
parsing a cached string with `JSON.parse` before returning it. -/
def getHeaders (cfg : ReqConfig) (fuel : Nat) (now : Int) (url : String) (s : Sys) :
    JsRes (Option HttpHeaders) × Sys :=
  if url = "" then (.err (.jsError "URL must be provided."), s)
  else
    match getFromCache cfg fuel now url NetMethod.HEAD s with
    | (.err e, s) => (.err e, s)
    | (.div, s) => (.div, s)
    | (.ok cached, s) =>
      let data0 : Option (Sum String HttpHeaders) := cached.map Sum.inl
      let afterFetch : JsRes (Option (Sum String HttpHeaders)) × Sys :=
        if cvTruthy data0 then (.ok data0, s)
        else
          match fetchUrlHeaders cfg fuel 0 url s with
          | (.err e, s) => (.err e, s)
          | (.div, s) => (.div, s)
          | (.ok fetched, s) =>
            match fetched with
            | some hdrs =>
              match saveToCache cfg fuel now url NetMethod.HEAD
                  (cfg.jsonStringify hdrs) s with
              | (.ok _, s) => (.ok (some (Sum.inr hdrs)), s)
              | (.err e, s) => (.err e, s)
              | (.div, s) => (.div, s)
            | none => (.ok none, s)
      match afterFetch with
      | (.err e, s) => (.err e, s)
      | (.div, s) => (.div, s)
      | (.ok data1, s) =>
        if cvTruthy data1 then
          match data1 with
          | some (.inl str) => (.ok (some (cfg.jsonParse str)), s)
          | some (.inr hdrs) => (.ok (some hdrs), s)
          | none => (.ok none, s)
        else (.ok none, s)

/-- `fetchUrl` of the earlier draft (src/lib/axios-cacheable-web-requestor.js
lines 285-323).  It takes the method as a parameter, but its `ECONNRESET`
retry on line 304 calls `this.fetchUrl(url)` without the method argument, so
the replay runs with `method === undefined`; its content-type test compares
for exact equality with `text/html; charset=utf-8`. -/
def fetchUrlLib (cfg : ReqConfig) : Nat → Nat → String → Option NetMethod → Sys →
    JsRes (Option String) × Sys
  | fuel, attempt, url, method, s =>
    match instNetReq cfg attempt url method s with
    | (.ok res, s) =>
      if res.status ≠ 200 then (.ok none, s)
      else if !(res.headers.lookup "content-type" == some "text/html; charset=utf-8") then
        (.ok (some "||FILEDATA||"), s)
      else (.ok (some res.data), s)
    | (.err e, s) =>
      match e with
      | .httpStatus c => if c ≠ 0 then (.ok none, s) else (.err (.httpStatus c), s)
      | .reset =>
        match fuel with
        | 0 => (.div, s)
        | n + 1 => fetchUrlLib cfg n (attempt + 1) url none s
      | _ => (.err e, s)
    | (.div, s) => (.div, s)


/-! ### Concrete fixtures used by witnesses and counterexamples -/

/-- The example URL of the spec scenarios. -/
def urlX : String := "http://a.example/x"

/-- Parsed components of `urlX`. -/
def urlPartsX : UrlParts := ⟨"a.example", "/x"⟩

/-- A URL parser fixture recognizing only `urlX`. -/
def parseX : String → Option UrlParts :=
  fun url => if url = urlX then some urlPartsX else none

/-- A serialization collaborator fixture. -/
def stringifyX : HttpHeaders → String := fun _ => "SERIALIZED"

/-- A parsing collaborator fixture. -/
def jsonParseX : String → HttpHeaders := fun _ => []

/-- The empty cache filesystem (only the root directory exists). -/
def emptyFs : CacheFs := ⟨fun _ => none, fun p => p.isEmpty⟩

/-- All statistics at zero (constructor state). -/
def stats0 : Stats := ⟨0, 0, 0, 0⟩

/-- A freshly constructed requestor state: `instrumenting = false`, no open
handles, empty cache, nothing fetched yet. -/
def sys0 : Sys := ⟨emptyFs, 0, false, stats0, []⟩

/-- The HTML success response of the end-to-end scenario in spec section 8. -/
def htmlResp : AxResp :=
  ⟨200, [("content-type", "text/html; charset=utf-8")], "<html>A</html>"⟩

/-- TTL 1000ms, cache under `/cache`, client answering every request with the
HTML success response. -/
def cfgHtml : ReqConfig :=
  ⟨"/cache", 1000, parseX, fun _ _ => .resp htmlResp, stringifyX, jsonParseX⟩

/-- As `cfgHtml` with a client rejecting every request with HTTP status 404. -/
def cfg404 : ReqConfig :=
  ⟨"/cache", 1000, parseX, fun _ _ => .errStatus 404, stringifyX, jsonParseX⟩

/-- As `cfgHtml` with a client rejecting every request with `ECONNRESET`. -/
def cfgReset : ReqConfig :=
  ⟨"/cache", 1000, parseX, fun _ _ => .errReset, stringifyX, jsonParseX⟩

/-- As `cfgHtml` with a client resetting the connection on the first attempt
and succeeding afterwards. -/
def cfgResetOnce : ReqConfig :=
  ⟨"/cache", 1000, parseX,
    fun attempt _ => if attempt = 0 then .errReset else .resp htmlResp,
    stringifyX, jsonParseX⟩

/-- As `cfgHtml` with a client serving `application/pdf` content. -/
def cfgPdf : ReqConfig :=
  ⟨"/cache", 1000, parseX,
    fun _ _ => .resp ⟨200, [("content-type", "application/pdf")], "PDFDATA"⟩,
    stringifyX, jsonParseX⟩

/-- As `cfgHtml` with a client serving an empty HTML body. -/
def cfgEmptyBody : ReqConfig :=
  ⟨"/cache", 1000, parseX,
    fun _ _ => .resp ⟨200, [("content-type", "text/html; charset=utf-8")], ""⟩,
    stringifyX, jsonParseX⟩

/-- The GET cache slot of `urlX` under `/cache`. -/
def pathX : FsPath := getPathForParts "/cache" urlPartsX NetMethod.GET

/-- A state whose GET slot for `urlX` holds an empty file (mtime 0). -/
def sysEmptyFile : Sys :=
  ⟨⟨fun q => if q = pathX then some ("", 0) else none, fun p => p.isEmpty⟩,
    0, false, stats0, []⟩

/-- A state whose GET slot for `urlX` holds `CACHED` (mtime 0). -/
def sysCached : Sys :=
  ⟨⟨fun q => if q = pathX then some ("CACHED", 0) else none, fun p => p.isEmpty⟩,
    0, false, stats0, []⟩

/-- The effect of one `queuedFileWrite` on the filesystem: the parent
directory chain of the target exists afterwards and the file holds the new
contents with the current time as mtime. -/
def mkdirWriteFs (fs : CacheFs) (p : FsPath) (content : String) (now : Int) : CacheFs :=
  ⟨fun q => if q = p then some (content, now) else fs.files q,
   fun q => q.isPrefixOf p.dropLast || fs.dirs q⟩

/-- Overriding the diagnostic state (the `instrumenting` flag and the
`stats` counters) of a requestor state. -/
def setIS (b : Bool) (st : Stats) (s : Sys) : Sys :=
  { s with instrumenting := b, stats := st }

theorem runQueue_le (maxHandles : Nat) :
    ∀ (ops : List QOp) (start n : Nat), start ≤ maxHandles + 1 →
      runQueue maxHandles start ops = some n → n ≤ maxHandles + 1 := by
  intro ops
  induction ops with
  | nil =>
    intro start n hstart h
    simp only [runQueue, Option.some.injEq] at h
    omega
  | cons op ops ih =>
    intro start n hstart h
    cases op with
    | acquire =>
      simp only [runQueue, qStep] at h
      by_cases hg : start ≤ maxHandles
      · simp only [hg, if_pos] at h
        exact ih (start + 1) n (by omega) h
      · simp [hg] at h
    | release =>
      simp only [runQueue, qStep] at h
      by_cases hg : 0 < start
      · simp only [hg, if_pos] at h
        exact ih (start - 1) n (by omega) h
      · simp [hg] at h

/-- C1 counterexample: fifty-one concurrent filesystem operations can all pass
the guard (each sees at most 50 open handles, and `50 <= 50` holds), so the
counter reaches 51 > 50 outstanding handles. -/
theorem queue_exceeds_max :
    runQueue ioQueueMaxHandles 0 (List.replicate 51 QOp.acquire) = some 51 ∧
      51 > ioQueueMaxHandles := by
  constructor
  · decide
  · decide

/-- C1 (amended): under every interleaving of guarded acquires and releases the
number of outstanding handles never exceeds `ioQueueMaxHandles + 1`. -/
theorem queue_bounded (ops : List QOp) (n : Nat)
    (h : runQueue ioQueueMaxHandles 0 ops = some n) :
    n ≤ ioQueueMaxHandles + 1 :=
  runQueue_le ioQueueMaxHandles ops 0 n (by decide) h

/-- Witness for `queue_bounded` at a concrete trace. -/
theorem queue_bounded_witness :
    runQueue ioQueueMaxHandles 0 [QOp.acquire, QOp.release] = some 0 ∧
      0 ≤ ioQueueMaxHandles + 1 :=
  ⟨by decide, queue_bounded [QOp.acquire, QOp.release] 0 (by decide)⟩

theorem splitSlash_no_slash (cs : List Char) (h : '/' ∉ cs) : splitSlash cs = [cs] := by
  induction cs with
  | nil => rfl
  | cons c rest ih =>
    simp only [List.mem_cons, not_or] at h
    simp only [splitSlash]
    rw [if_neg (fun hc => h.1 hc.symm)]
    rw [ih h.2]

theorem string_data_append (a b : String) : (a ++ b).data = a.data ++ b.data := by
  cases a; cases b; rfl

theorem normStep_nil (acc : List (List Char)) : normStep acc [] = acc := by
  simp [normStep]

theorem normStep_clean (acc : List (List Char)) (seg : List Char) (h0 : seg ≠ [])
    (h1 : seg ≠ ['.']) (h2 : seg ≠ ['.', '.']) : normStep acc seg = acc ++ [seg] := by
  simp [normStep, h0, h1, h2]

/-- Folding the normalization over segments none of which is `.` or `..`
just drops the empty segments. -/
theorem foldl_normStep_clean :
    ∀ (l : List (List Char)) (acc : List (List Char)),
      (∀ seg ∈ l, seg ≠ ['.'] ∧ seg ≠ ['.', '.']) →
      l.foldl normStep acc = acc ++ l.filter (fun seg => seg ≠ []) := by
  intro l
  induction l with
  | nil => intro acc _; simp
  | cons seg rest ih =>
    intro acc hclean
    have hseg := hclean seg (List.mem_cons_self _ _)
    have hrest : ∀ s ∈ rest, s ≠ ['.'] ∧ s ≠ ['.', '.'] := fun s hs =>
      hclean s (List.mem_cons_of_mem _ hs)
    by_cases hempty : seg = []
    · subst hempty
      simp only [List.foldl_cons, normStep_nil, List.filter_cons]
      rw [ih acc hrest]
      simp
    · simp only [List.foldl_cons, normStep_clean acc seg hempty hseg.1 hseg.2,
        List.filter_cons]
      rw [ih (acc ++ [seg]) hrest]
      simp [hempty]

/-- The filename segment `hostname + ext` is a single nonempty segment that is
not a dot segment, provided the hostname contains no slash. -/
theorem rawSegs_filename (h : String) (m : NetMethod) (hs : '/' ∉ h.data) :
    rawSegs (h ++ extSegStr m) = [h.data ++ (extSegStr m).data] := by
  have hext : '/' ∉ (extSegStr m).data := by cases m <;> decide
  have : '/' ∉ (h ++ extSegStr m).data := by
    rw [string_data_append]
    simp only [List.mem_append, not_or]
    exact ⟨hs, hext⟩
  rw [rawSegs, splitSlash_no_slash _ this, string_data_append]

theorem filename_not_dotseg (h : String) (m : NetMethod) :
    h.data ++ (extSegStr m).data ≠ [] ∧
      h.data ++ (extSegStr m).data ≠ ['.'] ∧
      h.data ++ (extSegStr m).data ≠ ['.', '.'] := by
  have hlen : ((extSegStr m).data).length = 5 := by cases m <;> decide
  refine ⟨?_, ?_, ?_⟩ <;>
    · intro hcontra
      have := congrArg List.length hcontra
      simp [hlen] at this

theorem extSegStr_data_length (m : NetMethod) : ((extSegStr m).data).length = 5 := by
  cases m <;> decide

/-- C8 counterexample: two distinct valid `(hostname, urlPath, method)` triples
resolving to the same cache file.  `http://a.example/x` and
`http://a.example/x/` parse to distinct pathnames, yet Node path
normalization collapses the trailing slash, so both GET slots are
`<cacheRoot>/x/a.example.html`. -/
theorem getPathForParts_collision :
    getPathForParts "/cache" ⟨"a.example", "/x"⟩ NetMethod.GET =
        getPathForParts "/cache" ⟨"a.example", "/x/"⟩ NetMethod.GET ∧
      ("/x" : String) ≠ "/x/" := by
  constructor
  · decide
  · decide

/-- C8 (amended): the resolver is a pure function of `(cachePath, hostname,
pathname, method)`, and it is injective up to URL-path normalization: two
slots with slash-free hostnames and dot-segment-free pathnames resolve to the
same file only when the hostnames agree, the methods agree, and the pathnames
agree up to removal of empty segments (duplicate/trailing slashes); in
particular GET and HEAD for the same URL always resolve to different paths. -/
theorem getPathForParts_injective_upto_norm :
    (∀ (cachePath h1 h2 p1 p2 : String) (m1 m2 : NetMethod),
      '/' ∉ h1.data → '/' ∉ h2.data →
      (∀ seg ∈ rawSegs p1, seg ≠ ['.'] ∧ seg ≠ ['.', '.']) →
      (∀ seg ∈ rawSegs p2, seg ≠ ['.'] ∧ seg ≠ ['.', '.']) →
      getPathForParts cachePath ⟨h1, p1⟩ m1 = getPathForParts cachePath ⟨h2, p2⟩ m2 →
      h1 = h2 ∧ m1 = m2 ∧
        (rawSegs p1).filter (fun seg => seg ≠ []) =
          (rawSegs p2).filter (fun seg => seg ≠ [])) ∧
    (∀ (cachePath h p : String), '/' ∉ h.data →
      getPathForParts cachePath ⟨h, p⟩ NetMethod.GET ≠
        getPathForParts cachePath ⟨h, p⟩ NetMethod.HEAD) := by
  constructor
  · intro cachePath h1 h2 p1 p2 m1 m2 hh1 hh2 hp1 hp2 heq
    rw [getPathForParts, getPathForParts, rawSegs_filename h1 m1 hh1,
      rawSegs_filename h2 m2 hh2] at heq
    rw [List.foldl_append, List.foldl_append, List.foldl_append, List.foldl_append] at heq
    rw [foldl_normStep_clean (rawSegs p1) _ hp1, foldl_normStep_clean (rawSegs p2) _ hp2]
      at heq
    have hf1 := filename_not_dotseg h1 m1
    have hf2 := filename_not_dotseg h2 m2
    simp only [List.foldl_cons, List.foldl_nil] at heq
    rw [normStep_clean _ _ hf1.1 hf1.2.1 hf1.2.2, normStep_clean _ _ hf2.1 hf2.2.1 hf2.2.2]
      at heq
    have hsplit := List.append_inj' heq (by rfl)
    have hbase := List.append_cancel_left hsplit.1
    have hfile : h1.data ++ (extSegStr m1).data = h2.data ++ (extSegStr m2).data := by
      have := hsplit.2
      simpa using this
    have hlen : ((extSegStr m1).data).length = ((extSegStr m2).data).length := by
      rw [extSegStr_data_length, extSegStr_data_length]
    have hhost := List.append_inj' hfile hlen
    refine ⟨?_, ?_, hbase⟩
    · cases h1; cases h2; exact congrArg String.mk hhost.1
    · cases m1 <;> cases m2 <;> first
        | rfl
        | exact absurd hhost.2 (by decide)
  · intro cachePath h p hh heq
    rw [getPathForParts, getPathForParts, rawSegs_filename h NetMethod.GET hh,
      rawSegs_filename h NetMethod.HEAD hh] at heq
    rw [List.foldl_append, List.foldl_append, List.foldl_append, List.foldl_append] at heq
    have hfg := filename_not_dotseg h NetMethod.GET
    have hfj := filename_not_dotseg h NetMethod.HEAD
    simp only [List.foldl_cons, List.foldl_nil] at heq
    rw [normStep_clean _ _ hfg.1 hfg.2.1 hfg.2.2, normStep_clean _ _ hfj.1 hfj.2.1 hfj.2.2]
      at heq
    have := List.append_cancel_left heq
    have hext : ((extSegStr NetMethod.GET).data : List Char) =
        (extSegStr NetMethod.HEAD).data := by
      have h2 : h.data ++ (extSegStr NetMethod.GET).data =
          h.data ++ (extSegStr NetMethod.HEAD).data := by simpa using this
      exact List.append_cancel_left h2
    exact absurd hext (by decide)

/-- Witness for the amended C8 theorem at concrete inputs: `/x` and `//x`
differ only by an empty segment, so they share a slot and the theorem reports
equal hostnames, methods, and normalized paths. -/
theorem getPathForParts_injective_witness :
    ('/' ∉ ("a.example" : String).data) ∧
      (∀ seg ∈ rawSegs "/x", seg ≠ ['.'] ∧ seg ≠ ['.', '.']) ∧
      (∀ seg ∈ rawSegs "//x", seg ≠ ['.'] ∧ seg ≠ ['.', '.']) ∧
      (getPathForParts "/c" ⟨"a.example", "/x"⟩ NetMethod.HEAD =
        getPathForParts "/c" ⟨"a.example", "//x"⟩ NetMethod.HEAD) ∧
      ("a.example" = "a.example" ∧ NetMethod.HEAD = NetMethod.HEAD ∧
        (rawSegs "/x").filter (fun seg => seg ≠ []) =
          (rawSegs "//x").filter (fun seg => seg ≠ [])) :=
  ⟨by decide, by decide, by decide, by decide,
    getPathForParts_injective_upto_norm.1 "/c" "a.example" "a.example" "/x" "//x"
      NetMethod.HEAD NetMethod.HEAD (by decide) (by decide) (by decide) (by decide)
      (by decide)⟩

theorem updateStats_pm (t op : String) (hop : op = "+" ∨ op = "-") (s : Sys) :
    ∃ st2, updateStats t op s = (.ok (), { s with stats := st2 }) := by
  by_cases hb : s.instrumenting
  · rcases hop with h | h <;> subst h
    · exact ⟨applyStat s.stats t 1, by simp [updateStats, hb]⟩
    · exact ⟨applyStat s.stats t (-1), by simp [updateStats, hb]⟩
  · refine ⟨s.stats, ?_⟩
    have hb2 : s.instrumenting = false := by simpa using hb
    cases s
    simp only at hb2
    simp [updateStats, hb2]

theorem instStat_found (p : FsPath) (s : Sys) (d : String) (mt : Int)
    (hf : s.fs.files p = some (d, mt)) :
    ∃ st2, instStat p s = (.ok mt, { s with stats := st2 }) := by
  obtain ⟨st1, h1⟩ := updateStats_pm "Stats" "+" (Or.inl rfl) s
  obtain ⟨st2, h2⟩ := updateStats_pm "Stats" "-" (Or.inr rfl) { s with stats := st1 }
  exact ⟨st2, by simp [instStat, jsBind, h1, statMtime, hf, h2]⟩

theorem instStat_missing (p : FsPath) (s : Sys) (hf : s.fs.files p = none) :
    ∃ st2, instStat p s = (.err (.fsError "ENOENT"), { s with stats := st2 }) := by
  obtain ⟨st1, h1⟩ := updateStats_pm "Stats" "+" (Or.inl rfl) s
  obtain ⟨st2, h2⟩ := updateStats_pm "Stats" "-" (Or.inr rfl) { s with stats := st1 }
  exact ⟨st2, by simp [instStat, jsBind, h1, statMtime, hf, h2]⟩

theorem queuedFileRead_found (fuel : Nat) (p : FsPath) (s : Sys) (d : String) (mt : Int)
    (hh : s.openHandles ≤ ioQueueMaxHandles) (hf : s.fs.files p = some (d, mt)) :
    queuedFileRead fuel p s = (.ok d, s) := by
  rw [queuedFileRead.eq_def]
  simp [if_pos hh, readFileFs, hf]

theorem instReadFile_found (fuel : Nat) (p : FsPath) (s : Sys) (d : String) (mt : Int)
    (hh : s.openHandles ≤ ioQueueMaxHandles) (hf : s.fs.files p = some (d, mt)) :
    ∃ st2, instReadFile fuel p s = (.ok d, { s with stats := st2 }) := by
  obtain ⟨st1, h1⟩ := updateStats_pm "Reads" "+" (Or.inl rfl) s
  have hq := queuedFileRead_found fuel p { s with stats := st1 } d mt hh hf
  obtain ⟨st2, h2⟩ := updateStats_pm "Reads" "-" (Or.inr rfl) { s with stats := st1 }
  exact ⟨st2, by simp [instReadFile, jsBind, h1, hq, h2]⟩

theorem isPrefixOf_self (l : FsPath) : l.isPrefixOf l = true := by
  induction l with
  | nil => rfl
  | cons a as ih => simp [List.isPrefixOf, ih]

theorem queuedFileWrite_ok (fuel : Nat) (now : Int) (p : FsPath) (content : String)
    (s : Sys) (hh : s.openHandles ≤ ioQueueMaxHandles) :
    queuedFileWrite fuel now p content s =
      (.ok (), { s with fs := mkdirWriteFs s.fs p content now }) := by
  rw [queuedFileWrite.eq_def]
  simp [if_pos hh, mkdirRecursive, writeFileFs, isPrefixOf_self, mkdirWriteFs]

theorem instWriteFile_ok (fuel : Nat) (now : Int) (p : FsPath) (content : String)
    (s : Sys) (hh : s.openHandles ≤ ioQueueMaxHandles) :
    ∃ st2, instWriteFile fuel now p content s =
      (.ok (), { s with fs := mkdirWriteFs s.fs p content now, stats := st2 }) := by
  obtain ⟨st1, h1⟩ := updateStats_pm "Writes" "+" (Or.inl rfl) s
  have hw := queuedFileWrite_ok fuel now p content { s with stats := st1 } hh
  obtain ⟨st2, h2⟩ := updateStats_pm "Writes" "-" (Or.inr rfl)
    { s with fs := mkdirWriteFs s.fs p content now, stats := st1 }
  exact ⟨st2, by simp [instWriteFile, jsBind, h1, hw, h2]⟩

theorem saveToCache_ok (cfg : ReqConfig) (fuel : Nat) (now : Int) (url : String)
    (u : UrlParts) (m : NetMethod) (content : String) (s : Sys)
    (hparse : cfg.parseUrl url = some u) (hh : s.openHandles ≤ ioQueueMaxHandles) :
    ∃ st2, saveToCache cfg fuel now url m content s =
      (.ok (),
        { s with fs := mkdirWriteFs s.fs (getPathForParts cfg.cachePath u m) content now,
                 stats := st2 }) := by
  obtain ⟨st2, hw⟩ :=
    instWriteFile_ok fuel now (getPathForParts cfg.cachePath u m) content s hh
  exact ⟨st2, by simp [saveToCache, getPathForUrlE, hparse, hw]⟩

theorem getFromCache_found (cfg : ReqConfig) (fuel : Nat) (now : Int) (url : String)
    (u : UrlParts) (m : NetMethod) (s : Sys) (d : String) (mt : Int)
    (hparse : cfg.parseUrl url = some u) (hh : s.openHandles ≤ ioQueueMaxHandles)
    (hf : s.fs.files (getPathForParts cfg.cachePath u m) = some (d, mt)) :
    (now - mt < cfg.cacheDuration →
      ∃ st2, getFromCache cfg fuel now url m s = (.ok (some d), { s with stats := st2 })) ∧
    (cfg.cacheDuration ≤ now - mt →
      ∃ st2, getFromCache cfg fuel now url m s = (.ok none, { s with stats := st2 })) := by
  obtain ⟨st1, hstat⟩ := instStat_found (getPathForParts cfg.cachePath u m) s d mt hf
  constructor
  · intro hfresh
    obtain ⟨st2, hread⟩ := instReadFile_found fuel (getPathForParts cfg.cachePath u m)
      { s with stats := st1 } d mt hh hf
    exact ⟨st2,
      by simp [getFromCache, getPathForUrlE, hparse, hstat, if_pos hfresh, jsBind, hread]⟩
  · intro hstale
    exact ⟨st1,
      by simp [getFromCache, getPathForUrlE, hparse, hstat, if_neg (not_lt.mpr hstale)]⟩

theorem getFromCache_miss (cfg : ReqConfig) (fuel : Nat) (now : Int) (url : String)
    (u : UrlParts) (m : NetMethod) (s : Sys)
    (hparse : cfg.parseUrl url = some u)
    (hf : s.fs.files (getPathForParts cfg.cachePath u m) = none) :
    ∃ st2, getFromCache cfg fuel now url m s = (.ok none, { s with stats := st2 }) := by
  obtain ⟨st1, hstat⟩ := instStat_missing (getPathForParts cfg.cachePath u m) s hf
  exact ⟨st1, by simp [getFromCache, getPathForUrlE, hparse, hstat, isENOENT]⟩

/-- C2: for every url (parsed to its components), method in GET/HEAD and
payload, `saveToCache` at time `t0` succeeds, creating the missing parent
directories of the slot, and a `getFromCache` of the same slot at any time
`t1` with elapsed time `t1 - t0` below the TTL returns exactly the stored
payload. -/
theorem saveToCache_getFromCache_roundtrip (cfg : ReqConfig) (fuel : Nat)
    (url : String) (u : UrlParts) (m : NetMethod) (payload : String) (t0 t1 : Int)
    (s : Sys) (hparse : cfg.parseUrl url = some u)
    (hh : s.openHandles ≤ ioQueueMaxHandles)
    (hfresh : t1 - t0 < cfg.cacheDuration) :
    (saveToCache cfg fuel t0 url m payload s).1 = .ok () ∧
    (saveToCache cfg fuel t0 url m payload s).2.fs.dirs
        (getPathForParts cfg.cachePath u m).dropLast = true ∧
    (getFromCache cfg fuel t1 url m (saveToCache cfg fuel t0 url m payload s).2).1 =
      .ok (some payload) := by
  obtain ⟨st2, hsave⟩ := saveToCache_ok cfg fuel t0 url u m payload s hparse hh
  refine ⟨by rw [hsave], ?_, ?_⟩
  · rw [hsave]
    simp [mkdirWriteFs, isPrefixOf_self]
  · have hf2 : (saveToCache cfg fuel t0 url m payload s).2.fs.files
        (getPathForParts cfg.cachePath u m) = some (payload, t0) := by
      rw [hsave]; simp [mkdirWriteFs]
    have hh2 : (saveToCache cfg fuel t0 url m payload s).2.openHandles ≤
        ioQueueMaxHandles := by rw [hsave]; exact hh
    obtain ⟨st3, hget⟩ := (getFromCache_found cfg fuel t1 url u m _ payload t0 hparse
      hh2 hf2).1 hfresh
    rw [hget]

/-- Witness for `saveToCache_getFromCache_roundtrip`: store `PAYLOAD` at time
0 and look it up at time 500 under a 1000ms TTL. -/
theorem saveToCache_getFromCache_roundtrip_witness :
    (cfgHtml.parseUrl urlX = some urlPartsX) ∧
      (sys0.openHandles ≤ ioQueueMaxHandles) ∧
      ((500 : Int) - 0 < cfgHtml.cacheDuration) ∧
      ((saveToCache cfgHtml 5 0 urlX NetMethod.GET "PAYLOAD" sys0).1 = .ok () ∧
        (saveToCache cfgHtml 5 0 urlX NetMethod.GET "PAYLOAD" sys0).2.fs.dirs
          (getPathForParts cfgHtml.cachePath urlPartsX NetMethod.GET).dropLast = true ∧
        (getFromCache cfgHtml 5 500 urlX NetMethod.GET
            (saveToCache cfgHtml 5 0 urlX NetMethod.GET "PAYLOAD" sys0).2).1 =
          .ok (some "PAYLOAD")) :=
  ⟨by decide, by decide, by decide,
    saveToCache_getFromCache_roundtrip cfgHtml 5 urlX urlPartsX NetMethod.GET "PAYLOAD"
      0 500 sys0 (by decide) (by decide) (by decide)⟩

/-- C3: a lookup whose backing file exists returns `undefined` when the file
age `now - mtime` is at least `cacheDuration`, leaving the filesystem (and in
particular the file) untouched; when the age is below `cacheDuration` it
returns the file contents. -/
theorem getFromCache_ttl (cfg : ReqConfig) (fuel : Nat) (now : Int) (url : String)
    (u : UrlParts) (m : NetMethod) (s : Sys) (d : String) (mt : Int)
    (hparse : cfg.parseUrl url = some u) (hh : s.openHandles ≤ ioQueueMaxHandles)
    (hf : s.fs.files (getPathForParts cfg.cachePath u m) = some (d, mt)) :
    (cfg.cacheDuration ≤ now - mt →
      (getFromCache cfg fuel now url m s).1 = .ok none ∧
      (getFromCache cfg fuel now url m s).2.fs = s.fs) ∧
    (now - mt < cfg.cacheDuration →
      (getFromCache cfg fuel now url m s).1 = .ok (some d)) := by
  have h := getFromCache_found cfg fuel now url u m s d mt hparse hh hf
  constructor
  · intro hstale
    obtain ⟨st2, heq⟩ := h.2 hstale
    rw [heq]
    exact ⟨rfl, rfl⟩
  · intro hfresh
    obtain ⟨st2, heq⟩ := h.1 hfresh
    rw [heq]

/-- Witness for `getFromCache_ttl`: a slot written at time 0 under a 1000ms
TTL is expired at time 2000 (but kept on disk) and served at time 100. -/
theorem getFromCache_ttl_witness :
    (cfgHtml.parseUrl urlX = some urlPartsX) ∧
      (sysCached.openHandles ≤ ioQueueMaxHandles) ∧
      (sysCached.fs.files (getPathForParts cfgHtml.cachePath urlPartsX NetMethod.GET) =
        some ("CACHED", 0)) ∧
      ((cfgHtml.cacheDuration ≤ (2000 : Int) - 0 →
        (getFromCache cfgHtml 5 2000 urlX NetMethod.GET sysCached).1 = .ok none ∧
        (getFromCache cfgHtml 5 2000 urlX NetMethod.GET sysCached).2.fs =
          sysCached.fs) ∧
      ((2000 : Int) - 0 < cfgHtml.cacheDuration →
        (getFromCache cfgHtml 5 2000 urlX NetMethod.GET sysCached).1 =
          .ok (some "CACHED"))) :=
  ⟨by decide, by decide, by decide,
    getFromCache_ttl cfgHtml 5 2000 urlX urlPartsX NetMethod.GET sysCached "CACHED" 0
      (by decide) (by decide) (by decide)⟩

theorem instNetReq_resp (cfg : ReqConfig) (attempt : Nat) (url : String) (m : NetMethod)
    (s : Sys) (r : AxResp) (hc : cfg.client attempt m = .resp r) :
    ∃ st2, instNetReq cfg attempt url (some m) s =
      (.ok r, { s with stats := st2, netLog := s.netLog ++ [(url, m)] }) := by
  obtain ⟨st1, h1⟩ := updateStats_pm "Requests" "+" (Or.inl rfl) s
  obtain ⟨st2, h2⟩ := updateStats_pm "Requests" "-" (Or.inr rfl)
    { s with stats := st1, netLog := s.netLog ++ [(url, m)] }
  exact ⟨st2, by simp [instNetReq, jsBind, h1, hc, h2]⟩

theorem instNetReq_errStatus (cfg : ReqConfig) (attempt : Nat) (url : String)
    (m : NetMethod) (s : Sys) (c : Int) (hc : cfg.client attempt m = .errStatus c) :
    ∃ st2, instNetReq cfg attempt url (some m) s =
      (.err (.httpStatus c), { s with stats := st2, netLog := s.netLog ++ [(url, m)] }) := by
  obtain ⟨st1, h1⟩ := updateStats_pm "Requests" "+" (Or.inl rfl) s
  obtain ⟨st2, h2⟩ := updateStats_pm "Requests" "-" (Or.inr rfl)
    { s with stats := st1, netLog := s.netLog ++ [(url, m)] }
  exact ⟨st2, by simp [instNetReq, jsBind, h1, hc, h2]⟩

theorem instNetReq_errReset (cfg : ReqConfig) (attempt : Nat) (url : String)
    (m : NetMethod) (s : Sys) (hc : cfg.client attempt m = .errReset) :
    ∃ st2, instNetReq cfg attempt url (some m) s =
      (.err .reset, { s with stats := st2, netLog := s.netLog ++ [(url, m)] }) := by
  obtain ⟨st1, h1⟩ := updateStats_pm "Requests" "+" (Or.inl rfl) s
  obtain ⟨st2, h2⟩ := updateStats_pm "Requests" "-" (Or.inr rfl)
    { s with stats := st1, netLog := s.netLog ++ [(url, m)] }
  exact ⟨st2, by simp [instNetReq, jsBind, h1, hc, h2]⟩

theorem instNetReq_none (cfg : ReqConfig) (attempt : Nat) (url : String) (s : Sys) :
    ∃ st2, instNetReq cfg attempt url none s =
      (.err (.jsError "Unknown Method"), { s with stats := st2 }) := by
  obtain ⟨st1, h1⟩ := updateStats_pm "Requests" "+" (Or.inl rfl) s
  obtain ⟨st2, h2⟩ := updateStats_pm "Requests" "-" (Or.inr rfl) { s with stats := st1 }
  exact ⟨st2, by simp [instNetReq, jsBind, h1, h2]⟩

theorem fetchUrlContents_resp_non200 (cfg : ReqConfig) (fuel attempt : Nat)
    (url : String) (s : Sys) (r : AxResp)
    (hc : cfg.client attempt NetMethod.GET = .resp r) (hst : r.status ≠ 200) :
    ∃ st2, fetchUrlContents cfg fuel attempt url s =
      (.ok none, { s with stats := st2, netLog := s.netLog ++ [(url, NetMethod.GET)] }) := by
  obtain ⟨st2, hnet⟩ := instNetReq_resp cfg attempt url NetMethod.GET s r hc
  exact ⟨st2, by rw [fetchUrlContents.eq_def]; simp [hnet, hst]⟩

theorem fetchUrlContents_errStatus (cfg : ReqConfig) (fuel attempt : Nat)
    (url : String) (s : Sys) (c : Int)
    (hc : cfg.client attempt NetMethod.GET = .errStatus c) (hc0 : c ≠ 0) :
    ∃ st2, fetchUrlContents cfg fuel attempt url s =
      (.ok none, { s with stats := st2, netLog := s.netLog ++ [(url, NetMethod.GET)] }) := by
  obtain ⟨st2, hnet⟩ := instNetReq_errStatus cfg attempt url NetMethod.GET s c hc
  exact ⟨st2, by rw [fetchUrlContents.eq_def]; simp [hnet, hc0]⟩

theorem fetchUrlContents_html (cfg : ReqConfig) (fuel attempt : Nat) (url : String)
    (s : Sys) (r : AxResp) (ct : String)
    (hc : cfg.client attempt NetMethod.GET = .resp r) (hst : r.status = 200)
    (hct : r.headers.lookup "content-type" = some ct)
    (hpre : strStartsWith ct "text/html;" = true) :
    ∃ st2, fetchUrlContents cfg fuel attempt url s =
      (.ok (some r.data),
        { s with stats := st2, netLog := s.netLog ++ [(url, NetMethod.GET)] }) := by
  obtain ⟨st2, hnet⟩ := instNetReq_resp cfg attempt url NetMethod.GET s r hc
  have hne : ct ≠ "" := by
    intro h
    rw [h] at hpre
    exact absurd hpre (by decide)
  exact ⟨st2, by rw [fetchUrlContents.eq_def]; simp [hnet, hst, hct, hne, hpre]⟩

theorem fetchUrlContents_opaque (cfg : ReqConfig) (fuel attempt : Nat) (url : String)
    (s : Sys) (r : AxResp)
    (hc : cfg.client attempt NetMethod.GET = .resp r) (hst : r.status = 200)
    (hct : r.headers.lookup "content-type" = none ∨
      ∃ ct, r.headers.lookup "content-type" = some ct ∧
        (ct = "" ∨ strStartsWith ct "text/html;" = false)) :
    ∃ st2, fetchUrlContents cfg fuel attempt url s =
      (.ok (some "||FILEDATA||"),
        { s with stats := st2, netLog := s.netLog ++ [(url, NetMethod.GET)] }) := by
  obtain ⟨st2, hnet⟩ := instNetReq_resp cfg attempt url NetMethod.GET s r hc
  refine ⟨st2, ?_⟩
  rw [fetchUrlContents.eq_def]
  rcases hct with hnone | ⟨ct, hsome, hbad⟩
  · simp [hnet, hst, hnone]
  · rcases hbad with hbad | hbad <;> simp [hnet, hst, hsome, hbad]

theorem fetchUrlContents_reset_step (cfg : ReqConfig) (fuel attempt : Nat)
    (url : String) (s : Sys) (hc : cfg.client attempt NetMethod.GET = .errReset) :
    ∃ st2,
      fetchUrlContents cfg (fuel + 1) attempt url s =
        fetchUrlContents cfg fuel (attempt + 1) url
          { s with stats := st2, netLog := s.netLog ++ [(url, NetMethod.GET)] } ∧
      fetchUrlContents cfg 0 attempt url s =
        (.div, { s with stats := st2, netLog := s.netLog ++ [(url, NetMethod.GET)] }) := by
  obtain ⟨st2, hnet⟩ := instNetReq_errReset cfg attempt url NetMethod.GET s hc
  refine ⟨st2, ?_, ?_⟩
  · rw [fetchUrlContents.eq_def]
    simp [hnet]
  · rw [fetchUrlContents.eq_def]
    simp [hnet]

theorem fetchUrlHeaders_reset_step (cfg : ReqConfig) (fuel attempt : Nat)
    (url : String) (s : Sys) (hc : cfg.client attempt NetMethod.HEAD = .errReset) :
    ∃ st2,
      fetchUrlHeaders cfg (fuel + 1) attempt url s =
        fetchUrlHeaders cfg fuel (attempt + 1) url
          { s with stats := st2, netLog := s.netLog ++ [(url, NetMethod.HEAD)] } ∧
      fetchUrlHeaders cfg 0 attempt url s =
        (.div, { s with stats := st2, netLog := s.netLog ++ [(url, NetMethod.HEAD)] }) := by
  obtain ⟨st2, hnet⟩ := instNetReq_errReset cfg attempt url NetMethod.HEAD s hc
  refine ⟨st2, ?_, ?_⟩
  · rw [fetchUrlHeaders.eq_def]
    simp [hnet]
  · rw [fetchUrlHeaders.eq_def]
    simp [hnet]

theorem fetchUrlContents_state_resp (cfg : ReqConfig) (fuel attempt : Nat)
    (url : String) (s : Sys) (r : AxResp)
    (hc : cfg.client attempt NetMethod.GET = .resp r) :
    ∃ st2, (fetchUrlContents cfg fuel attempt url s).2 =
      { s with stats := st2, netLog := s.netLog ++ [(url, NetMethod.GET)] } := by
  obtain ⟨st2, hnet⟩ := instNetReq_resp cfg attempt url NetMethod.GET s r hc
  refine ⟨st2, ?_⟩
  rw [fetchUrlContents.eq_def]
  simp only [hnet]
  repeat' split
  all_goals rfl

theorem fetchUrlContents_state_errStatus (cfg : ReqConfig) (fuel attempt : Nat)
    (url : String) (s : Sys) (c : Int)
    (hc : cfg.client attempt NetMethod.GET = .errStatus c) :
    ∃ st2, (fetchUrlContents cfg fuel attempt url s).2 =
      { s with stats := st2, netLog := s.netLog ++ [(url, NetMethod.GET)] } := by
  obtain ⟨st2, hnet⟩ := instNetReq_errStatus cfg attempt url NetMethod.GET s c hc
  refine ⟨st2, ?_⟩
  rw [fetchUrlContents.eq_def]
  simp only [hnet]
  repeat' split
  all_goals rfl

theorem fetchUrlContents_state_errOther (cfg : ReqConfig) (fuel attempt : Nat)
    (url : String) (s : Sys) (msg : String)
    (hc : cfg.client attempt NetMethod.GET = .errOther msg) :
    ∃ st2, (fetchUrlContents cfg fuel attempt url s).2 =
      { s with stats := st2, netLog := s.netLog ++ [(url, NetMethod.GET)] } := by
  obtain ⟨st1, h1⟩ := updateStats_pm "Requests" "+" (Or.inl rfl) s
  obtain ⟨st2, h2⟩ := updateStats_pm "Requests" "-" (Or.inr rfl)
    { s with stats := st1, netLog := s.netLog ++ [(url, NetMethod.GET)] }
  have hnet : instNetReq cfg attempt url (some NetMethod.GET) s =
      (.err (.transport msg),
        { s with stats := st2, netLog := s.netLog ++ [(url, NetMethod.GET)] }) := by
    simp [instNetReq, jsBind, h1, hc, h2]
  refine ⟨st2, ?_⟩
  rw [fetchUrlContents.eq_def]
  simp [hnet]

/-- Every network request that `fetchUrlContents` issues, including every
connection-reset retry, is a GET of the original url (part_000 lines
426-465). -/
theorem fetchUrlContents_requests_only (cfg : ReqConfig) :
    ∀ (fuel attempt : Nat) (url : String) (s : Sys),
      ∃ k, (fetchUrlContents cfg fuel attempt url s).2.netLog =
        s.netLog ++ List.replicate k (url, NetMethod.GET) := by
  intro fuel
  induction fuel with
  | zero =>
    intro attempt url s
    rcases hc : cfg.client attempt NetMethod.GET with r | c | _ | msg
    · obtain ⟨st2, h⟩ := fetchUrlContents_state_resp cfg 0 attempt url s r hc
      exact ⟨1, by rw [h]; simp⟩
    · obtain ⟨st2, h⟩ := fetchUrlContents_state_errStatus cfg 0 attempt url s c hc
      exact ⟨1, by rw [h]; simp⟩
    · obtain ⟨st2, _, h0⟩ := fetchUrlContents_reset_step cfg 0 attempt url s hc
      exact ⟨1, by rw [h0]; simp⟩
    · obtain ⟨st2, h⟩ := fetchUrlContents_state_errOther cfg 0 attempt url s msg hc
      exact ⟨1, by rw [h]; simp⟩
  | succ n ih =>
    intro attempt url s
    rcases hc : cfg.client attempt NetMethod.GET with r | c | _ | msg
    · obtain ⟨st2, h⟩ := fetchUrlContents_state_resp cfg (n + 1) attempt url s r hc
      exact ⟨1, by rw [h]; simp⟩
    · obtain ⟨st2, h⟩ := fetchUrlContents_state_errStatus cfg (n + 1) attempt url s c hc
      exact ⟨1, by rw [h]; simp⟩
    · obtain ⟨st2, hstep, _⟩ := fetchUrlContents_reset_step cfg n attempt url s hc
      obtain ⟨k, hk⟩ := ih (attempt + 1) url
        { s with stats := st2, netLog := s.netLog ++ [(url, NetMethod.GET)] }
      refine ⟨k + 1, ?_⟩
      rw [hstep, hk]
      simp [List.replicate_succ, List.append_assoc]
    · obtain ⟨st2, h⟩ := fetchUrlContents_state_errOther cfg (n + 1) attempt url s msg hc
      exact ⟨1, by rw [h]; simp⟩

theorem fetchUrlHeaders_state_resp (cfg : ReqConfig) (fuel attempt : Nat)
    (url : String) (s : Sys) (r : AxResp)
    (hc : cfg.client attempt NetMethod.HEAD = .resp r) :
    ∃ st2, (fetchUrlHeaders cfg fuel attempt url s).2 =
      { s with stats := st2, netLog := s.netLog ++ [(url, NetMethod.HEAD)] } := by
  obtain ⟨st2, hnet⟩ := instNetReq_resp cfg attempt url NetMethod.HEAD s r hc
  refine ⟨st2, ?_⟩
  rw [fetchUrlHeaders.eq_def]
  simp only [hnet]
  repeat' split
  all_goals rfl

theorem fetchUrlHeaders_state_errStatus (cfg : ReqConfig) (fuel attempt : Nat)
    (url : String) (s : Sys) (c : Int)
    (hc : cfg.client attempt NetMethod.HEAD = .errStatus c) :
    ∃ st2, (fetchUrlHeaders cfg fuel attempt url s).2 =
      { s with stats := st2, netLog := s.netLog ++ [(url, NetMethod.HEAD)] } := by
  obtain ⟨st2, hnet⟩ := instNetReq_errStatus cfg attempt url NetMethod.HEAD s c hc
  refine ⟨st2, ?_⟩
  rw [fetchUrlHeaders.eq_def]
  simp only [hnet]
  repeat' split
  all_goals rfl

theorem fetchUrlHeaders_state_errOther (cfg : ReqConfig) (fuel attempt : Nat)
    (url : String) (s : Sys) (msg : String)
    (hc : cfg.client attempt NetMethod.HEAD = .errOther msg) :
    ∃ st2, (fetchUrlHeaders cfg fuel attempt url s).2 =
      { s with stats := st2, netLog := s.netLog ++ [(url, NetMethod.HEAD)] } := by
  obtain ⟨st1, h1⟩ := updateStats_pm "Requests" "+" (Or.inl rfl) s
  obtain ⟨st2, h2⟩ := updateStats_pm "Requests" "-" (Or.inr rfl)
    { s with stats := st1, netLog := s.netLog ++ [(url, NetMethod.HEAD)] }
  have hnet : instNetReq cfg attempt url (some NetMethod.HEAD) s =
      (.err (.transport msg),
        { s with stats := st2, netLog := s.netLog ++ [(url, NetMethod.HEAD)] }) := by
    simp [instNetReq, jsBind, h1, hc, h2]
  refine ⟨st2, ?_⟩
  rw [fetchUrlHeaders.eq_def]
  simp [hnet]

/-- Every network request that `fetchUrlHeaders` issues, including every
connection-reset retry, is a HEAD of the original url (part_000 lines
471-504). -/
theorem fetchUrlHeaders_requests_only (cfg : ReqConfig) :
    ∀ (fuel attempt : Nat) (url : String) (s : Sys),
      ∃ k, (fetchUrlHeaders cfg fuel attempt url s).2.netLog =
        s.netLog ++ List.replicate k (url, NetMethod.HEAD) := by
  intro fuel
  induction fuel with
  | zero =>
    intro attempt url s
    rcases hc : cfg.client attempt NetMethod.HEAD with r | c | _ | msg
    · obtain ⟨st2, h⟩ := fetchUrlHeaders_state_resp cfg 0 attempt url s r hc
      exact ⟨1, by rw [h]; simp⟩
    · obtain ⟨st2, h⟩ := fetchUrlHeaders_state_errStatus cfg 0 attempt url s c hc
      exact ⟨1, by rw [h]; simp⟩
    · obtain ⟨st2, _, h0⟩ := fetchUrlHeaders_reset_step cfg 0 attempt url s hc
      exact ⟨1, by rw [h0]; simp⟩
    · obtain ⟨st2, h⟩ := fetchUrlHeaders_state_errOther cfg 0 attempt url s msg hc
      exact ⟨1, by rw [h]; simp⟩
  | succ n ih =>
    intro attempt url s
    rcases hc : cfg.client attempt NetMethod.HEAD with r | c | _ | msg
    · obtain ⟨st2, h⟩ := fetchUrlHeaders_state_resp cfg (n + 1) attempt url s r hc
      exact ⟨1, by rw [h]; simp⟩
    · obtain ⟨st2, h⟩ := fetchUrlHeaders_state_errStatus cfg (n + 1) attempt url s c hc
      exact ⟨1, by rw [h]; simp⟩
    · obtain ⟨st2, hstep, _⟩ := fetchUrlHeaders_reset_step cfg n attempt url s hc
      obtain ⟨k, hk⟩ := ih (attempt + 1) url
        { s with stats := st2, netLog := s.netLog ++ [(url, NetMethod.HEAD)] }
      refine ⟨k + 1, ?_⟩
      rw [hstep, hk]
      simp [List.replicate_succ, List.append_assoc]
    · obtain ⟨st2, h⟩ := fetchUrlHeaders_state_errOther cfg (n + 1) attempt url s msg hc
      exact ⟨1, by rw [h]; simp⟩

/-- C4: `fetchUrlContents`/`fetchUrlHeaders` against a client that raises a
connection reset on every attempt never escape the retry loop (for every
retry budget the computation is still retrying, i.e. the recursion does not
terminate after any bounded number of attempts), while against a client that
resets exactly once and then succeeds one retry suffices and the successful
result is returned. -/
theorem fetch_reset_retry :
    (∀ (cfg : ReqConfig), (∀ a, cfg.client a NetMethod.GET = .errReset) →
      ∀ (fuel attempt : Nat) (url : String) (s : Sys),
        (fetchUrlContents cfg fuel attempt url s).1 = .div) ∧
    (∀ (cfg : ReqConfig), (∀ a, cfg.client a NetMethod.HEAD = .errReset) →
      ∀ (fuel attempt : Nat) (url : String) (s : Sys),
        (fetchUrlHeaders cfg fuel attempt url s).1 = .div) ∧
    ((fetchUrlContents cfgResetOnce 2 0 urlX sys0).1 = .ok (some "<html>A</html>")) ∧
    ((fetchUrlHeaders cfgResetOnce 2 0 urlX sys0).1 =
      .ok (some [("content-type", "text/html; charset=utf-8")])) := by
  refine ⟨?_, ?_, by decide, by decide⟩
  · intro cfg hreset fuel
    induction fuel with
    | zero =>
      intro attempt url s
      obtain ⟨st2, _, h0⟩ := fetchUrlContents_reset_step cfg 0 attempt url s (hreset attempt)
      rw [h0]
    | succ n ih =>
      intro attempt url s
      obtain ⟨st2, hstep, _⟩ := fetchUrlContents_reset_step cfg n attempt url s (hreset attempt)
      rw [hstep]
      exact ih (attempt + 1) url _
  · intro cfg hreset fuel
    induction fuel with
    | zero =>
      intro attempt url s
      obtain ⟨st2, _, h0⟩ := fetchUrlHeaders_reset_step cfg 0 attempt url s (hreset attempt)
      rw [h0]
    | succ n ih =>
      intro attempt url s
      obtain ⟨st2, hstep, _⟩ := fetchUrlHeaders_reset_step cfg n attempt url s (hreset attempt)
      rw [hstep]
      exact ih (attempt + 1) url _

/-- Witness for `fetch_reset_retry` at the always-resetting client fixture. -/
theorem fetch_reset_retry_witness :
    (∀ a, cfgReset.client a NetMethod.GET = .errReset) ∧
      (fetchUrlContents cfgReset 3 0 urlX sys0).1 = .div :=
  ⟨fun _ => rfl, fetch_reset_retry.1 cfgReset (fun _ => rfl) 3 0 urlX sys0⟩

/-- C5: the earlier draft's `fetchUrl` (src/lib/axios-cacheable-web-requestor.js
line 304) retries a connection reset by calling `this.fetchUrl(url)` without
the method argument: called with HEAD against a client that resets on the
first attempt, the replay runs with `method === undefined`, throws
`Unknown Method` instead of re-issuing the request, and only the original
HEAD request is ever issued. -/
theorem fetchUrlLib_retry_drops_method :
    (fetchUrlLib cfgResetOnce 5 0 urlX (some NetMethod.HEAD) sys0).1 =
        .err (.jsError "Unknown Method") ∧
      (fetchUrlLib cfgResetOnce 5 0 urlX (some NetMethod.HEAD) sys0).2.netLog =
        [(urlX, NetMethod.HEAD)] := by
  constructor <;> decide

/-- C6: on a cache miss, a client answering with an HTTP status other than
200 — whether as an axios rejection carrying `err.response.status` (the
default for 404) or as a resolved non-200 response — makes `getContents`
return `undefined` (not an exception) and leaves the filesystem unchanged:
no cache file is written. -/
theorem getContents_non200 (cfg : ReqConfig) (fuel : Nat) (now : Int) (url : String)
    (u : UrlParts) (s : Sys) (hurl : url ≠ "") (hparse : cfg.parseUrl url = some u)
    (hmiss : s.fs.files (getPathForParts cfg.cachePath u NetMethod.GET) = none) :
    (∀ c : Int, c ≠ 0 → cfg.client 0 NetMethod.GET = .errStatus c →
      (getContents cfg fuel now url s).1 = .ok none ∧
      (getContents cfg fuel now url s).2.fs = s.fs) ∧
    (∀ r : AxResp, r.status ≠ 200 → cfg.client 0 NetMethod.GET = .resp r →
      (getContents cfg fuel now url s).1 = .ok none ∧
      (getContents cfg fuel now url s).2.fs = s.fs) := by
  obtain ⟨st1, hmiss2⟩ := getFromCache_miss cfg fuel now url u NetMethod.GET s hparse hmiss
  constructor
  · intro c hc0 hc
    obtain ⟨st2, hfetch⟩ :=
      fetchUrlContents_errStatus cfg fuel 0 url { s with stats := st1 } c hc hc0
    constructor <;> simp [getContents, hurl, hmiss2, hfetch, optTruthy]
  · intro r hst hc
    obtain ⟨st2, hfetch⟩ :=
      fetchUrlContents_resp_non200 cfg fuel 0 url { s with stats := st1 } r hc hst
    constructor <;> simp [getContents, hurl, hmiss2, hfetch, optTruthy]

/-- Witness for `getContents_non200`: a 404-rejecting client on an empty
cache. -/
theorem getContents_non200_witness :
    (urlX ≠ "") ∧ (cfg404.parseUrl urlX = some urlPartsX) ∧
      (sys0.fs.files (getPathForParts cfg404.cachePath urlPartsX NetMethod.GET) =
        none) ∧
      ((404 : Int) ≠ 0) ∧ (cfg404.client 0 NetMethod.GET = .errStatus 404) ∧
      ((getContents cfg404 5 0 urlX sys0).1 = .ok none ∧
        (getContents cfg404 5 0 urlX sys0).2.fs = sys0.fs) :=
  ⟨by decide, by decide, by decide, by decide, rfl,
    (getContents_non200 cfg404 5 0 urlX urlPartsX sys0 (by decide) (by decide)
        (by decide)).1 404 (by decide) rfl⟩

/-- C7: for a status-200 response, a content-type starting with `text/html;`
makes `fetchUrlContents` return the body as-is (HTML classification), while
an absent, empty, or any other content-type makes `getContents` return the
`||FILEDATA||` sentinel and store exactly that sentinel in the GET cache
slot. -/
theorem classification_by_content_type (cfg : ReqConfig) (fuel : Nat) (now : Int)
    (url : String) (u : UrlParts) (s : Sys) (r : AxResp)
    (hurl : url ≠ "") (hparse : cfg.parseUrl url = some u)
    (hh : s.openHandles ≤ ioQueueMaxHandles)
    (hmiss : s.fs.files (getPathForParts cfg.cachePath u NetMethod.GET) = none)
    (hc : cfg.client 0 NetMethod.GET = .resp r) (hst : r.status = 200) :
    (∀ ct, r.headers.lookup "content-type" = some ct →
      strStartsWith ct "text/html;" = true →
      (fetchUrlContents cfg fuel 0 url s).1 = .ok (some r.data)) ∧
    ((r.headers.lookup "content-type" = none ∨
        ∃ ct, r.headers.lookup "content-type" = some ct ∧
          (ct = "" ∨ strStartsWith ct "text/html;" = false)) →
      (getContents cfg fuel now url s).1 = .ok (some "||FILEDATA||") ∧
      (getContents cfg fuel now url s).2.fs.files
          (getPathForParts cfg.cachePath u NetMethod.GET) =
        some ("||FILEDATA||", now)) := by
  constructor
  · intro ct hct hpre
    obtain ⟨st2, hfetch⟩ := fetchUrlContents_html cfg fuel 0 url s r ct hc hst hct hpre
    rw [hfetch]
  · intro hop
    obtain ⟨st1, hmiss2⟩ :=
      getFromCache_miss cfg fuel now url u NetMethod.GET s hparse hmiss
    obtain ⟨st2, hfetch⟩ :=
      fetchUrlContents_opaque cfg fuel 0 url { s with stats := st1 } r hc hst hop
    obtain ⟨st3, hsave⟩ := saveToCache_ok cfg fuel now url u NetMethod.GET "||FILEDATA||"
      { s with stats := st2, netLog := s.netLog ++ [(url, NetMethod.GET)] } hparse hh
    constructor
    · simp [getContents, hurl, hmiss2, hfetch, optTruthy, hsave]
    · simp [getContents, hurl, hmiss2, hfetch, optTruthy, hsave, mkdirWriteFs]

/-- Witness for `classification_by_content_type`: an `application/pdf` response
yields the cached sentinel, and an HTML response is returned as-is. -/
theorem classification_by_content_type_witness :
    ((getContents cfgPdf 5 0 urlX sys0).1 = .ok (some "||FILEDATA||") ∧
      (getContents cfgPdf 5 0 urlX sys0).2.fs.files
          (getPathForParts cfgPdf.cachePath urlPartsX NetMethod.GET) =
        some ("||FILEDATA||", 0)) ∧
      (fetchUrlContents cfgHtml 5 0 urlX sys0).1 = .ok (some "<html>A</html>") :=
  ⟨(classification_by_content_type cfgPdf 5 0 urlX urlPartsX sys0
      ⟨200, [("content-type", "application/pdf")], "PDFDATA"⟩ (by decide) (by decide)
      (by decide) (by decide) rfl (by decide)).2
      (Or.inr ⟨"application/pdf", by decide, Or.inr (by decide)⟩),
    (classification_by_content_type cfgHtml 5 0 urlX urlPartsX sys0 htmlResp (by decide)
      (by decide) (by decide) (by decide) rfl (by decide)).1
      "text/html; charset=utf-8" (by decide) (by decide)⟩

/-- C10: an empty string is indistinguishable from absence at the public
interface: a status-200 HTML response with an empty body makes `getContents`
return `undefined` without writing a cache entry, and a fresh cache file
holding the empty string is treated as a miss — a network fetch is issued and
its result returned instead of the cached empty string. -/
theorem getContents_empty_string (cfg : ReqConfig) (fuel : Nat) (now : Int)
    (url : String) (u : UrlParts) (s : Sys)
    (hurl : url ≠ "") (hparse : cfg.parseUrl url = some u)
    (hh : s.openHandles ≤ ioQueueMaxHandles) :
    (∀ r : AxResp, ∀ ct, cfg.client 0 NetMethod.GET = .resp r → r.status = 200 →
      r.headers.lookup "content-type" = some ct →
      strStartsWith ct "text/html;" = true → r.data = "" →
      s.fs.files (getPathForParts cfg.cachePath u NetMethod.GET) = none →
      (getContents cfg fuel now url s).1 = .ok none ∧
      (getContents cfg fuel now url s).2.fs = s.fs) ∧
    (∀ (mt : Int) (r : AxResp) (ct : String),
      s.fs.files (getPathForParts cfg.cachePath u NetMethod.GET) = some ("", mt) →
      now - mt < cfg.cacheDuration →
      cfg.client 0 NetMethod.GET = .resp r → r.status = 200 →
      r.headers.lookup "content-type" = some ct →
      strStartsWith ct "text/html;" = true → r.data ≠ "" →
      (getContents cfg fuel now url s).1 = .ok (some r.data) ∧
      (getContents cfg fuel now url s).2.netLog =
        s.netLog ++ [(url, NetMethod.GET)]) := by
  constructor
  · intro r ct hc hst hct hpre hdata hmiss
    obtain ⟨st1, hmiss2⟩ :=
      getFromCache_miss cfg fuel now url u NetMethod.GET s hparse hmiss
    obtain ⟨st2, hfetch⟩ :=
      fetchUrlContents_html cfg fuel 0 url { s with stats := st1 } r ct hc hst hct hpre
    constructor <;> simp [getContents, hurl, hmiss2, hfetch, optTruthy, hdata]
  · intro mt r ct hf hfresh hc hst hct hpre hdata
    obtain ⟨st1, hcache⟩ := (getFromCache_found cfg fuel now url u NetMethod.GET s "" mt
      hparse hh hf).1 hfresh
    obtain ⟨st2, hfetch⟩ :=
      fetchUrlContents_html cfg fuel 0 url { s with stats := st1 } r ct hc hst hct hpre
    obtain ⟨st3, hsave⟩ := saveToCache_ok cfg fuel now url u NetMethod.GET r.data
      { s with stats := st2, netLog := s.netLog ++ [(url, NetMethod.GET)] } hparse hh
    constructor <;>
      simp [getContents, hurl, hcache, hfetch, optTruthy, hdata, hsave]

/-- Witness for `getContents_empty_string`: an empty HTML body yields
`undefined` and no write; a cached empty file triggers a fresh fetch whose
body is returned. -/
theorem getContents_empty_string_witness :
    ((getContents cfgEmptyBody 5 0 urlX sys0).1 = .ok none ∧
      (getContents cfgEmptyBody 5 0 urlX sys0).2.fs = sys0.fs) ∧
      ((getContents cfgHtml 5 100 urlX sysEmptyFile).1 = .ok (some "<html>A</html>") ∧
        (getContents cfgHtml 5 100 urlX sysEmptyFile).2.netLog =
          sysEmptyFile.netLog ++ [(urlX, NetMethod.GET)]) :=
  ⟨(getContents_empty_string cfgEmptyBody 5 0 urlX urlPartsX sys0 (by decide) (by decide)
      (by decide)).1 ⟨200, [("content-type", "text/html; charset=utf-8")], ""⟩
      "text/html; charset=utf-8" rfl (by decide) (by decide) (by decide) (by decide)
      (by decide),
    (getContents_empty_string cfgHtml 5 100 urlX urlPartsX sysEmptyFile (by decide)
      (by decide) (by decide)).2 0 htmlResp "text/html; charset=utf-8" (by decide)
      (by decide) rfl (by decide) (by decide) (by decide) (by decide)⟩

theorem instNetReq_errOther (cfg : ReqConfig) (attempt : Nat) (url : String)
    (m : NetMethod) (s : Sys) (msg : String) (hc : cfg.client attempt m = .errOther msg) :
    ∃ st2, instNetReq cfg attempt url (some m) s =
      (.err (.transport msg),
        { s with stats := st2, netLog := s.netLog ++ [(url, m)] }) := by
  obtain ⟨st1, h1⟩ := updateStats_pm "Requests" "+" (Or.inl rfl) s
  obtain ⟨st2, h2⟩ := updateStats_pm "Requests" "-" (Or.inr rfl)
    { s with stats := st1, netLog := s.netLog ++ [(url, m)] }
  exact ⟨st2, by simp [instNetReq, jsBind, h1, hc, h2]⟩

theorem instStat_frame (p : FsPath) (b : Bool) (st : Stats) (s : Sys) :
    ∃ st2, instStat p (setIS b st s) =
      ((instStat p s).1, setIS b st2 (instStat p s).2) := by
  obtain ⟨sa1, ha1⟩ := updateStats_pm "Stats" "+" (Or.inl rfl) (setIS b st s)
  obtain ⟨sb1, hb1⟩ := updateStats_pm "Stats" "+" (Or.inl rfl) s
  simp only [setIS] at ha1
  cases hm : statMtime s.fs p with
  | ok mt =>
    obtain ⟨sa2, ha2⟩ := updateStats_pm "Stats" "-" (Or.inr rfl) (setIS b sa1 s)
    obtain ⟨sb2, hb2⟩ := updateStats_pm "Stats" "-" (Or.inr rfl) { s with stats := sb1 }
    refine ⟨sa2, ?_⟩
    simp only [setIS] at ha2 ⊢
    simp [instStat, jsBind, ha1, hb1, hm, ha2, hb2]
  | error e =>
    obtain ⟨sa2, ha2⟩ := updateStats_pm "Stats" "-" (Or.inr rfl) (setIS b sa1 s)
    obtain ⟨sb2, hb2⟩ := updateStats_pm "Stats" "-" (Or.inr rfl) { s with stats := sb1 }
    refine ⟨sa2, ?_⟩
    simp only [setIS] at ha2 ⊢
    simp [instStat, jsBind, ha1, hb1, hm, ha2, hb2]

theorem queuedFileRead_frame :
    ∀ (fuel : Nat) (p : FsPath) (b : Bool) (st : Stats) (s : Sys),
      queuedFileRead fuel p (setIS b st s) =
        ((queuedFileRead fuel p s).1, setIS b st (queuedFileRead fuel p s).2) := by
  intro fuel
  induction fuel with
  | zero =>
    intro p b st s
    rw [queuedFileRead.eq_def, queuedFileRead.eq_def]
    by_cases hg : s.openHandles ≤ ioQueueMaxHandles
    · cases hr : readFileFs s.fs p <;> simp [setIS, hg, hr]
    · simp [setIS, hg]
  | succ n ih =>
    intro p b st s
    have hrec := ih p b st s
    simp only [setIS] at hrec
    rw [queuedFileRead.eq_def, queuedFileRead.eq_def]
    by_cases hg : s.openHandles ≤ ioQueueMaxHandles
    · cases hr : readFileFs s.fs p <;> simp [setIS, hg, hr]
    · simp [setIS, hg, hrec]

theorem queuedFileWrite_frame :
    ∀ (fuel : Nat) (now : Int) (p : FsPath) (content : String) (b : Bool) (st : Stats)
      (s : Sys),
      queuedFileWrite fuel now p content (setIS b st s) =
        ((queuedFileWrite fuel now p content s).1,
          setIS b st (queuedFileWrite fuel now p content s).2) := by
  intro fuel
  induction fuel with
  | zero =>
    intro now p content b st s
    rw [queuedFileWrite.eq_def, queuedFileWrite.eq_def]
    by_cases hg : s.openHandles ≤ ioQueueMaxHandles
    · cases hw : writeFileFs (mkdirRecursive s.fs p.dropLast) p content now <;>
        simp [setIS, hg, hw]
    · simp [setIS, hg]
  | succ n ih =>
    intro now p content b st s
    have hrec := ih now p content b st s
    simp only [setIS] at hrec
    rw [queuedFileWrite.eq_def, queuedFileWrite.eq_def]
    by_cases hg : s.openHandles ≤ ioQueueMaxHandles
    · cases hw : writeFileFs (mkdirRecursive s.fs p.dropLast) p content now <;>
        simp [setIS, hg, hw]
    · simp [setIS, hg, hrec]

theorem instReadFile_frame (fuel : Nat) (p : FsPath) (b : Bool) (st : Stats) (s : Sys) :
    ∃ st2, instReadFile fuel p (setIS b st s) =
      ((instReadFile fuel p s).1, setIS b st2 (instReadFile fuel p s).2) := by
  obtain ⟨sa1, ha1⟩ := updateStats_pm "Reads" "+" (Or.inl rfl) (setIS b st s)
  obtain ⟨sb1, hb1⟩ := updateStats_pm "Reads" "+" (Or.inl rfl) s
  simp only [setIS] at ha1
  have hq := queuedFileRead_frame fuel p b sa1 { s with stats := sb1 }
  simp only [setIS] at hq
  rcases hqc : queuedFileRead fuel p { s with stats := sb1 } with ⟨r1, s1⟩
  rw [hqc] at hq
  cases r1 with
  | ok content =>
    obtain ⟨sa2, ha2⟩ := updateStats_pm "Reads" "-" (Or.inr rfl) (setIS b sa1 s1)
    obtain ⟨sb2, hb2⟩ := updateStats_pm "Reads" "-" (Or.inr rfl) s1
    refine ⟨sa2, ?_⟩
    simp only [setIS] at ha2 ⊢
    simp [instReadFile, jsBind, ha1, hb1, hq, hqc, ha2, hb2]
  | err e =>
    obtain ⟨sa2, ha2⟩ := updateStats_pm "Reads" "-" (Or.inr rfl) (setIS b sa1 s1)
    obtain ⟨sb2, hb2⟩ := updateStats_pm "Reads" "-" (Or.inr rfl) s1
    refine ⟨sa2, ?_⟩
    simp only [setIS] at ha2 ⊢
    simp [instReadFile, jsBind, ha1, hb1, hq, hqc, ha2, hb2]
  | div =>
    refine ⟨sa1, ?_⟩
    simp only [setIS]
    simp [instReadFile, jsBind, ha1, hb1, hq, hqc]

theorem instWriteFile_frame (fuel : Nat) (now : Int) (p : FsPath) (content : String)
    (b : Bool) (st : Stats) (s : Sys) :
    ∃ st2, instWriteFile fuel now p content (setIS b st s) =
      ((instWriteFile fuel now p content s).1,
        setIS b st2 (instWriteFile fuel now p content s).2) := by
  obtain ⟨sa1, ha1⟩ := updateStats_pm "Writes" "+" (Or.inl rfl) (setIS b st s)
  obtain ⟨sb1, hb1⟩ := updateStats_pm "Writes" "+" (Or.inl rfl) s
  simp only [setIS] at ha1
  have hq := queuedFileWrite_frame fuel now p content b sa1 { s with stats := sb1 }
  simp only [setIS] at hq
  rcases hqc : queuedFileWrite fuel now p content { s with stats := sb1 } with ⟨r1, s1⟩
  rw [hqc] at hq
  cases r1 with
  | ok a =>
    obtain ⟨sa2, ha2⟩ := updateStats_pm "Writes" "-" (Or.inr rfl) (setIS b sa1 s1)
    obtain ⟨sb2, hb2⟩ := updateStats_pm "Writes" "-" (Or.inr rfl) s1
    refine ⟨sa2, ?_⟩
    simp only [setIS] at ha2 ⊢
    simp [instWriteFile, jsBind, ha1, hb1, hq, hqc, ha2, hb2]
  | err e =>
    obtain ⟨sa2, ha2⟩ := updateStats_pm "Writes" "-" (Or.inr rfl) (setIS b sa1 s1)
    obtain ⟨sb2, hb2⟩ := updateStats_pm "Writes" "-" (Or.inr rfl) s1
    refine ⟨sa2, ?_⟩
    simp only [setIS] at ha2 ⊢
    simp [instWriteFile, jsBind, ha1, hb1, hq, hqc, ha2, hb2]
  | div =>
    refine ⟨sa1, ?_⟩
    simp only [setIS]
    simp [instWriteFile, jsBind, ha1, hb1, hq, hqc]

theorem instNetReq_frame (cfg : ReqConfig) (attempt : Nat) (url : String)
    (method : Option NetMethod) (b : Bool) (st : Stats) (s : Sys) :
    ∃ st2, instNetReq cfg attempt url method (setIS b st s) =
      ((instNetReq cfg attempt url method s).1,
        setIS b st2 (instNetReq cfg attempt url method s).2) := by
  cases method with
  | none =>
    obtain ⟨sa, ha⟩ := instNetReq_none cfg attempt url (setIS b st s)
    obtain ⟨sb, hb⟩ := instNetReq_none cfg attempt url s
    exact ⟨sa, by rw [ha, hb]; simp [setIS]⟩
  | some m =>
    rcases hc : cfg.client attempt m with r | c | _ | msg
    · obtain ⟨sa, ha⟩ := instNetReq_resp cfg attempt url m (setIS b st s) r hc
      obtain ⟨sb, hb⟩ := instNetReq_resp cfg attempt url m s r hc
      exact ⟨sa, by rw [ha, hb]; simp [setIS]⟩
    · obtain ⟨sa, ha⟩ := instNetReq_errStatus cfg attempt url m (setIS b st s) c hc
      obtain ⟨sb, hb⟩ := instNetReq_errStatus cfg attempt url m s c hc
      exact ⟨sa, by rw [ha, hb]; simp [setIS]⟩
    · obtain ⟨sa, ha⟩ := instNetReq_errReset cfg attempt url m (setIS b st s) hc
      obtain ⟨sb, hb⟩ := instNetReq_errReset cfg attempt url m s hc
      exact ⟨sa, by rw [ha, hb]; simp [setIS]⟩
    · obtain ⟨sa, ha⟩ := instNetReq_errOther cfg attempt url m (setIS b st s) msg hc
      obtain ⟨sb, hb⟩ := instNetReq_errOther cfg attempt url m s msg hc
      exact ⟨sa, by rw [ha, hb]; simp [setIS]⟩

theorem getFromCache_frame (cfg : ReqConfig) (fuel : Nat) (now : Int) (url : String)
    (m : NetMethod) (b : Bool) (st : Stats) (s : Sys) :
    ∃ st2, getFromCache cfg fuel now url m (setIS b st s) =
      ((getFromCache cfg fuel now url m s).1,
        setIS b st2 (getFromCache cfg fuel now url m s).2) := by
  cases hp : getPathForUrlE cfg url m with
  | error e => exact ⟨st, by simp [getFromCache, hp]⟩
  | ok fp =>
    obtain ⟨st1, hstat⟩ := instStat_frame fp b st s
    rcases hsc : instStat fp s with ⟨r1, s1⟩
    rw [hsc] at hstat
    cases r1 with
    | ok mt =>
      by_cases hfresh : now - mt < cfg.cacheDuration
      · obtain ⟨st2, hread⟩ := instReadFile_frame fuel fp b st1 s1
        rcases hrc : instReadFile fuel fp s1 with ⟨r2, s2⟩
        rw [hrc] at hread
        cases r2 with
        | ok content =>
          exact ⟨st2, by simp [getFromCache, hp, hstat, hsc, hfresh, jsBind, hread, hrc]⟩
        | err e =>
          exact ⟨st2, by simp [getFromCache, hp, hstat, hsc, hfresh, jsBind, hread, hrc]⟩
        | div =>
          exact ⟨st2, by simp [getFromCache, hp, hstat, hsc, hfresh, jsBind, hread, hrc]⟩
      · exact ⟨st1, by simp [getFromCache, hp, hstat, hsc, hfresh]⟩
    | err e =>
      by_cases he : isENOENT e <;>
        exact ⟨st1, by simp [getFromCache, hp, hstat, hsc, he]⟩
    | div => exact ⟨st1, by simp [getFromCache, hp, hstat, hsc]⟩

theorem saveToCache_frame (cfg : ReqConfig) (fuel : Nat) (now : Int) (url : String)
    (m : NetMethod) (content : String) (b : Bool) (st : Stats) (s : Sys) :
    ∃ st2, saveToCache cfg fuel now url m content (setIS b st s) =
      ((saveToCache cfg fuel now url m content s).1,
        setIS b st2 (saveToCache cfg fuel now url m content s).2) := by
  cases hp : getPathForUrlE cfg url m with
  | error e => exact ⟨st, by simp [saveToCache, hp]⟩
  | ok fp =>
    obtain ⟨st2, hw⟩ := instWriteFile_frame fuel now fp content b st s
    exact ⟨st2, by simp [saveToCache, hp, hw]⟩

theorem fetchUrlContents_frame (cfg : ReqConfig) :
    ∀ (fuel attempt : Nat) (url : String) (b : Bool) (st : Stats) (s : Sys),
      ∃ st2, fetchUrlContents cfg fuel attempt url (setIS b st s) =
        ((fetchUrlContents cfg fuel attempt url s).1,
          setIS b st2 (fetchUrlContents cfg fuel attempt url s).2) := by
  intro fuel
  induction fuel with
  | zero =>
    intro attempt url b st s
    obtain ⟨st1, hn⟩ := instNetReq_frame cfg attempt url (some NetMethod.GET) b st s
    rcases hnc : instNetReq cfg attempt url (some NetMethod.GET) s with ⟨r1, s1⟩
    rw [hnc] at hn
    refine ⟨st1, ?_⟩
    rw [fetchUrlContents.eq_def, fetchUrlContents.eq_def]
    simp only [hn, hnc]
    cases r1 with
    | ok res =>
      by_cases hstatus : res.status ≠ 200
      · simp [hstatus]
      · cases hct : res.headers.lookup "content-type" with
        | none => simp [hstatus, hct]
        | some ct =>
          simp [hstatus, hct]
          split <;> rfl
    | err e => cases e <;> simp <;> split <;> rfl
    | div => simp
  | succ n ih =>
    intro attempt url b st s
    obtain ⟨st1, hn⟩ := instNetReq_frame cfg attempt url (some NetMethod.GET) b st s
    rcases hnc : instNetReq cfg attempt url (some NetMethod.GET) s with ⟨r1, s1⟩
    rw [hnc] at hn
    cases r1 with
    | ok res =>
      refine ⟨st1, ?_⟩
      rw [fetchUrlContents.eq_def, fetchUrlContents.eq_def]
      simp only [hn, hnc]
      by_cases hstatus : res.status ≠ 200
      · simp [hstatus]
      · cases hct : res.headers.lookup "content-type" with
        | none => simp [hstatus, hct]
        | some ct =>
          simp [hstatus, hct]
          split <;> rfl
    | err e =>
      cases e with
      | reset =>
        obtain ⟨st2, hrec⟩ := ih (attempt + 1) url b st1 s1
        refine ⟨st2, ?_⟩
        rw [fetchUrlContents.eq_def, fetchUrlContents.eq_def]
        simp only [hn, hnc]
        simp [hrec]
      | fsError code => exact ⟨st1, by
          rw [fetchUrlContents.eq_def, fetchUrlContents.eq_def]; simp [hn, hnc]⟩
      | httpStatus c => exact ⟨st1, by
          rw [fetchUrlContents.eq_def, fetchUrlContents.eq_def]; simp [hn, hnc];
          split <;> rfl⟩
      | transport msg => exact ⟨st1, by
          rw [fetchUrlContents.eq_def, fetchUrlContents.eq_def]; simp [hn, hnc]⟩
      | jsError msg => exact ⟨st1, by
          rw [fetchUrlContents.eq_def, fetchUrlContents.eq_def]; simp [hn, hnc]⟩
    | div =>
      exact ⟨st1, by
        rw [fetchUrlContents.eq_def, fetchUrlContents.eq_def]; simp [hn, hnc]⟩

theorem fetchUrlHeaders_frame (cfg : ReqConfig) :
    ∀ (fuel attempt : Nat) (url : String) (b : Bool) (st : Stats) (s : Sys),
      ∃ st2, fetchUrlHeaders cfg fuel attempt url (setIS b st s) =
        ((fetchUrlHeaders cfg fuel attempt url s).1,
          setIS b st2 (fetchUrlHeaders cfg fuel attempt url s).2) := by
  intro fuel
  induction fuel with
  | zero =>
    intro attempt url b st s
    obtain ⟨st1, hn⟩ := instNetReq_frame cfg attempt url (some NetMethod.HEAD) b st s
    rcases hnc : instNetReq cfg attempt url (some NetMethod.HEAD) s with ⟨r1, s1⟩
    rw [hnc] at hn
    refine ⟨st1, ?_⟩
    rw [fetchUrlHeaders.eq_def, fetchUrlHeaders.eq_def]
    simp only [hn, hnc]
    cases r1 with
    | ok res => by_cases hstatus : res.status ≠ 200 <;> simp [hstatus]
    | err e => cases e <;> simp <;> split <;> rfl
    | div => simp
  | succ n ih =>
    intro attempt url b st s
    obtain ⟨st1, hn⟩ := instNetReq_frame cfg attempt url (some NetMethod.HEAD) b st s
    rcases hnc : instNetReq cfg attempt url (some NetMethod.HEAD) s with ⟨r1, s1⟩
    rw [hnc] at hn
    cases r1 with
    | ok res =>
      refine ⟨st1, ?_⟩
      rw [fetchUrlHeaders.eq_def, fetchUrlHeaders.eq_def]
      simp only [hn, hnc]
      by_cases hstatus : res.status ≠ 200 <;> simp [hstatus]
    | err e =>
      cases e with
      | reset =>
        obtain ⟨st2, hrec⟩ := ih (attempt + 1) url b st1 s1
        refine ⟨st2, ?_⟩
        rw [fetchUrlHeaders.eq_def, fetchUrlHeaders.eq_def]
        simp only [hn, hnc]
        simp [hrec]
      | fsError code => exact ⟨st1, by
          rw [fetchUrlHeaders.eq_def, fetchUrlHeaders.eq_def]; simp [hn, hnc]⟩
      | httpStatus c => exact ⟨st1, by
          rw [fetchUrlHeaders.eq_def, fetchUrlHeaders.eq_def]; simp [hn, hnc];
          split <;> rfl⟩
      | transport msg => exact ⟨st1, by
          rw [fetchUrlHeaders.eq_def, fetchUrlHeaders.eq_def]; simp [hn, hnc]⟩
      | jsError msg => exact ⟨st1, by
          rw [fetchUrlHeaders.eq_def, fetchUrlHeaders.eq_def]; simp [hn, hnc]⟩
    | div =>
      exact ⟨st1, by
        rw [fetchUrlHeaders.eq_def, fetchUrlHeaders.eq_def]; simp [hn, hnc]⟩

theorem getContents_frame (cfg : ReqConfig) (fuel : Nat) (now : Int) (url : String)
    (b : Bool) (st : Stats) (s : Sys) :
    ∃ st2, getContents cfg fuel now url (setIS b st s) =
      ((getContents cfg fuel now url s).1,
        setIS b st2 (getContents cfg fuel now url s).2) := by
  by_cases hurl : url = ""
  · exact ⟨st, by simp [getContents, hurl]⟩
  · obtain ⟨st1, hg⟩ := getFromCache_frame cfg fuel now url NetMethod.GET b st s
    rcases hgc : getFromCache cfg fuel now url NetMethod.GET s with ⟨r1, s1⟩
    rw [hgc] at hg
    cases r1 with
    | err e => exact ⟨st1, by simp [getContents, hurl, hg, hgc]⟩
    | div => exact ⟨st1, by simp [getContents, hurl, hg, hgc]⟩
    | ok cached =>
      by_cases ht : optTruthy cached
      · exact ⟨st1, by simp [getContents, hurl, hg, hgc, ht]⟩
      · obtain ⟨st2, hf⟩ := fetchUrlContents_frame cfg fuel 0 url b st1 s1
        rcases hfc : fetchUrlContents cfg fuel 0 url s1 with ⟨r2, s2⟩
        rw [hfc] at hf
        cases r2 with
        | err e => exact ⟨st2, by simp [getContents, hurl, hg, hgc, ht, hf, hfc]⟩
        | div => exact ⟨st2, by simp [getContents, hurl, hg, hgc, ht, hf, hfc]⟩
        | ok fetched =>
          by_cases ht2 : optTruthy fetched
          · obtain ⟨st3, hs⟩ := saveToCache_frame cfg fuel now url NetMethod.GET
              (fetched.getD "") b st2 s2
            rcases hsc : saveToCache cfg fuel now url NetMethod.GET (fetched.getD "") s2
              with ⟨r3, s3⟩
            rw [hsc] at hs
            cases r3 with
            | ok a => exact ⟨st3, by
                simp [getContents, hurl, hg, hgc, ht, hf, hfc, ht2, hs, hsc]⟩
            | err e => exact ⟨st3, by
                simp [getContents, hurl, hg, hgc, ht, hf, hfc, ht2, hs, hsc]⟩
            | div => exact ⟨st3, by
                simp [getContents, hurl, hg, hgc, ht, hf, hfc, ht2, hs, hsc]⟩
          · exact ⟨st2, by simp [getContents, hurl, hg, hgc, ht, hf, hfc, ht2]⟩

theorem getHeaders_frame (cfg : ReqConfig) (fuel : Nat) (now : Int) (url : String)
    (b : Bool) (st : Stats) (s : Sys) :
    ∃ st2, getHeaders cfg fuel now url (setIS b st s) =
      ((getHeaders cfg fuel now url s).1,
        setIS b st2 (getHeaders cfg fuel now url s).2) := by
  by_cases hurl : url = ""
  · exact ⟨st, by simp [getHeaders, hurl]⟩
  · obtain ⟨st1, hg⟩ := getFromCache_frame cfg fuel now url NetMethod.HEAD b st s
    rcases hgc : getFromCache cfg fuel now url NetMethod.HEAD s with ⟨r1, s1⟩
    rw [hgc] at hg
    cases r1 with
    | err e => exact ⟨st1, by simp [getHeaders, hurl, hg, hgc]⟩
    | div => exact ⟨st1, by simp [getHeaders, hurl, hg, hgc]⟩
    | ok cached =>
      cases cached with
      | some str =>
        by_cases hstr : str = ""
        · subst hstr
          obtain ⟨st2, hf⟩ := fetchUrlHeaders_frame cfg fuel 0 url b st1 s1
          rcases hfc : fetchUrlHeaders cfg fuel 0 url s1 with ⟨r2, s2⟩
          rw [hfc] at hf
          cases r2 with
          | err e => exact ⟨st2, by simp [getHeaders, hurl, hg, hgc, cvTruthy, hf, hfc]⟩
          | div => exact ⟨st2, by simp [getHeaders, hurl, hg, hgc, cvTruthy, hf, hfc]⟩
          | ok fetched =>
            cases fetched with
            | none => exact ⟨st2, by simp [getHeaders, hurl, hg, hgc, cvTruthy, hf, hfc]⟩
            | some hdrs =>
              obtain ⟨st3, hs⟩ := saveToCache_frame cfg fuel now url NetMethod.HEAD
                (cfg.jsonStringify hdrs) b st2 s2
              rcases hsc : saveToCache cfg fuel now url NetMethod.HEAD
                  (cfg.jsonStringify hdrs) s2 with ⟨r3, s3⟩
              rw [hsc] at hs
              cases r3 with
              | ok a => exact ⟨st3, by
                  simp [getHeaders, hurl, hg, hgc, cvTruthy, hf, hfc, hs, hsc]⟩
              | err e => exact ⟨st3, by
                  simp [getHeaders, hurl, hg, hgc, cvTruthy, hf, hfc, hs, hsc]⟩
              | div => exact ⟨st3, by
                  simp [getHeaders, hurl, hg, hgc, cvTruthy, hf, hfc, hs, hsc]⟩
        · exact ⟨st1, by simp [getHeaders, hurl, hg, hgc, cvTruthy, hstr]⟩
      | none =>
        obtain ⟨st2, hf⟩ := fetchUrlHeaders_frame cfg fuel 0 url b st1 s1
        rcases hfc : fetchUrlHeaders cfg fuel 0 url s1 with ⟨r2, s2⟩
        rw [hfc] at hf
        cases r2 with
        | err e => exact ⟨st2, by simp [getHeaders, hurl, hg, hgc, cvTruthy, hf, hfc]⟩
        | div => exact ⟨st2, by simp [getHeaders, hurl, hg, hgc, cvTruthy, hf, hfc]⟩
        | ok fetched =>
          cases fetched with
          | none => exact ⟨st2, by simp [getHeaders, hurl, hg, hgc, cvTruthy, hf, hfc]⟩
          | some hdrs =>
            obtain ⟨st3, hs⟩ := saveToCache_frame cfg fuel now url NetMethod.HEAD
              (cfg.jsonStringify hdrs) b st2 s2
            rcases hsc : saveToCache cfg fuel now url NetMethod.HEAD
                (cfg.jsonStringify hdrs) s2 with ⟨r3, s3⟩
            rw [hsc] at hs
            cases r3 with
            | ok a => exact ⟨st3, by
                simp [getHeaders, hurl, hg, hgc, cvTruthy, hf, hfc, hs, hsc]⟩
            | err e => exact ⟨st3, by
                simp [getHeaders, hurl, hg, hgc, cvTruthy, hf, hfc, hs, hsc]⟩
            | div => exact ⟨st3, by
                simp [getHeaders, hurl, hg, hgc, cvTruthy, hf, hfc, hs, hsc]⟩

/-- C9: two-run noninterference over the diagnostic state: for identical
external inputs (cache filesystem, clock, network client, url), the results
of `getContents` and `getHeaders`, the resulting filesystem, the handle
counter and the issued network requests are identical whatever the
`instrumenting` flag and `stats` counters are set to — instrumentation never
affects control flow or returned values. -/
theorem instrumentation_noninterference (cfg : ReqConfig) (fuel : Nat) (now : Int)
    (url : String) (b : Bool) (st : Stats) (s : Sys) :
    ((getContents cfg fuel now url (setIS b st s)).1 =
        (getContents cfg fuel now url s).1 ∧
      (getContents cfg fuel now url (setIS b st s)).2.fs =
        (getContents cfg fuel now url s).2.fs ∧
      (getContents cfg fuel now url (setIS b st s)).2.openHandles =
        (getContents cfg fuel now url s).2.openHandles ∧
      (getContents cfg fuel now url (setIS b st s)).2.netLog =
        (getContents cfg fuel now url s).2.netLog) ∧
    ((getHeaders cfg fuel now url (setIS b st s)).1 =
        (getHeaders cfg fuel now url s).1 ∧
      (getHeaders cfg fuel now url (setIS b st s)).2.fs =
        (getHeaders cfg fuel now url s).2.fs ∧
      (getHeaders cfg fuel now url (setIS b st s)).2.openHandles =
        (getHeaders cfg fuel now url s).2.openHandles ∧
      (getHeaders cfg fuel now url (setIS b st s)).2.netLog =
        (getHeaders cfg fuel now url s).2.netLog) := by
  obtain ⟨st2, hc⟩ := getContents_frame cfg fuel now url b st s
  obtain ⟨st3, hh⟩ := getHeaders_frame cfg fuel now url b st s
  rw [hc, hh]
  exact ⟨⟨rfl, rfl, rfl, rfl⟩, rfl, rfl, rfl, rfl⟩
